import Mathlib

/-!
# presto_exporter: the collector of `presto_exporter.go`

A shallow embedding of the `Exporter` collector: the metric catalog (the nine
`prometheus.Desc` values and `Describe`), the decode step
`json.Unmarshal(body, &e)` as `encoding/json` performs it on the `Exporter`
struct, and `Collect` with its four abort paths, its deferred body close and
its emission of nine gauge samples.

The upstream call is an input: `Upstream` is what `http.Get` and
`ioutil.ReadAll` hand to `Collect`.  The bytes of a body are represented by
what the decoder's scanner makes of them: not a JSON text, or the JSON
document they spell (members in order of appearance, duplicates kept).
-/

namespace PrestoExporter

/-! ## float64 and JSON numbers -/

/-- A finite float64 in IEEE 754 binary64 form: sign, integer significand
and binary exponent, of value `(-1)^neg * mant * 2^exp`.  `ParseFloat`
yields the normal form `2^52 ≤ mant < 2^53`, `-1074 ≤ exp ≤ 971`, or the
subnormal form `mant < 2^52`, `exp = -1074`, so equal values of one sign have
equal representations. -/
structure Float64 where
  neg : Bool
  mant : Nat
  exp : Int
deriving DecidableEq, Repr

/-- The zero value of a Go `float64` field. -/
def Float64.zero : Float64 := ⟨false, 0, -1074⟩

/-- The rational number a finite float64 stands for. -/
def Float64.toRat (x : Float64) : ℚ :=
  (if x.neg then -1 else 1) * (x.mant : ℚ) * (2 : ℚ) ^ x.exp

/-- A JSON number token `-?digits(.digits)?([eE][+-]?digits)?`, read as
sign, decimal digit string (the point removed) and power of ten. -/
structure JNumber where
  neg : Bool
  digits : Nat
  exp10 : Int
deriving DecidableEq, Repr

/-- The exact value a JSON number token denotes. -/
def JNumber.toRat (n : JNumber) : ℚ :=
  (if n.neg then -1 else 1) * (n.digits : ℚ) * (10 : ℚ) ^ n.exp10

/-- The number of halvings that bring `n` below 2, counted for at most
`fuel` rounds. -/
def log2Loop : Nat → Nat → Nat
  | 0, _ => 0
  | fuel + 1, n => if n < 2 then 0 else log2Loop fuel (n / 2) + 1

/-- The floor of the binary logarithm of `n`, and 0 at 0. -/
def log2 (n : Nat) : Nat := log2Loop n n

/-- The quotient `(num / den) / 2^k` as a fraction of naturals. -/
def scaled (num den : Nat) (k : Int) : Nat × Nat :=
  if 0 ≤ k then (num, den * 2 ^ k.toNat) else (num * 2 ^ (-k).toNat, den)

/-- Whether `2^e ≤ num / den`, for `den > 0`. -/
def geTwoPow (num den : Nat) (e : Int) : Bool :=
  decide ((scaled num den e).2 ≤ (scaled num den e).1)

/-- The binary exponent of `num / den`, for `num > 0` and `den > 0`: the `e`
with `2^e ≤ num / den < 2^(e+1)`. -/
def binaryExponent (num den : Nat) : Int :=
  if geTwoPow num den ((log2 num : Int) - (log2 den : Int))
  then (log2 num : Int) - (log2 den : Int)
  else (log2 num : Int) - (log2 den : Int) - 1

/-- The quotient `num / den` rounded to the nearest integer, ties to even. -/
def roundHalfEven (num den : Nat) : Nat :=
  if den < 2 * (num % den) ∨ (2 * (num % den) = den ∧ (num / den) % 2 = 1)
  then num / den + 1 else num / den

/-- The numerator of the magnitude of a token, over `JNumber.den`. -/
def JNumber.num (n : JNumber) : Nat :=
  if 0 ≤ n.exp10 then n.digits * 10 ^ n.exp10.toNat else n.digits

/-- The denominator of the magnitude of a token. -/
def JNumber.den (n : JNumber) : Nat :=
  if 0 ≤ n.exp10 then 1 else 10 ^ (-n.exp10).toNat

/-- The result of the library call `strconv.ParseFloat(s, 64)` on a JSON
number token, which Go rounds correctly: the nearest float64, ties to even,
and `none` for the range error Go reports when the rounded magnitude would
reach `2^1024`.  A magnitude that rounds to zero is returned as zero without
error.  The significand is the magnitude divided by the unit in the last
place `2^k` and rounded, where `k` is 52 below the binary exponent and at
least -1074. -/
def ParseFloat (n : JNumber) : Option Float64 :=
  if n.num = 0 then some ⟨n.neg, 0, -1074⟩
  else
    let k : Int := max (binaryExponent n.num n.den) (-1022) - 52
    let m := roundHalfEven (scaled n.num n.den k).1 (scaled n.num n.den k).2
    let r : Float64 := if m = 2 ^ 53 then ⟨n.neg, 2 ^ 52, k + 1⟩ else ⟨n.neg, m, k⟩
    if 971 < r.exp then none else some r

/-- Whether a float64 is in the form `ParseFloat` yields: normal with
`2^52 ≤ mant < 2^53` and `-1074 ≤ exp ≤ 971`, or subnormal (zero included)
with `mant < 2^52` and `exp = -1074`. -/
def Float64.isCanonical (x : Float64) : Bool :=
  (decide (2 ^ 52 ≤ x.mant) && decide (x.mant < 2 ^ 53) && decide (-1074 ≤ x.exp) &&
      decide (x.exp ≤ 971)) ||
    (decide (x.mant < 2 ^ 52) && decide (x.exp = -1074))

/-! ## JSON documents -/

/-- A JSON document as the decoder walks it: object members are kept in the
order of the text, duplicates included, with keys already unquoted. -/
inductive JSON where
  | null : JSON
  | bool (b : Bool) : JSON
  | number (n : JNumber) : JSON
  | string (s : String) : JSON
  | array (items : List JSON) : JSON
  | object (members : List (String × JSON)) : JSON

/-! ## The metric catalog -/

/-- The constant `namespace` of the source, a reserved word here. -/
def metricNamespace : String := "presto_cluster"

/-- The function `prometheus.BuildFQName`: the non-empty parts joined by an
underscore, and the empty string when `name` is empty. -/
def BuildFQName (ns subsystem name : String) : String :=
  if name = "" then ""
  else if ns ≠ "" ∧ subsystem ≠ "" then ns ++ "_" ++ subsystem ++ "_" ++ name
  else if ns ≠ "" then ns ++ "_" ++ name
  else if subsystem ≠ "" then subsystem ++ "_" ++ name
  else name

/-- The rune test of `model.IsValidMetricName`: a letter, an underscore, a
colon, or a digit when not in first position. -/
def isValidRune (first : Bool) (c : Char) : Bool :=
  ('a' ≤ c && c ≤ 'z') || ('A' ≤ c && c ≤ 'Z') || c = '_' || c = ':' ||
    ('0' ≤ c && c ≤ '9' && !first)

/-- The function `model.IsValidMetricName`. -/
def IsValidMetricName (n : String) : Bool :=
  match n.data with
  | [] => false
  | c :: cs => isValidRune true c && cs.all (isValidRune false)

/-- A `prometheus.Desc`: the identity of one metric.  `err` records that
`NewDesc` found the descriptor invalid. -/
structure Desc where
  fqName : String
  help : String
  variableLabels : List String
  constLabels : List (String × String)
  err : Bool
deriving DecidableEq, Repr

/-- The function `prometheus.NewDesc`; the source passes `nil, nil` for the
labels, given here as empty lists. -/
def NewDesc (fqName help : String) (variableLabels : List String)
    (constLabels : List (String × String)) : Desc :=
  { fqName := fqName, help := help, variableLabels := variableLabels,
    constLabels := constLabels, err := !IsValidMetricName fqName }

def runningQueries : Desc :=
  NewDesc (BuildFQName metricNamespace "" "running_queries")
    "Running requests of the presto cluster." [] []

def blockedQueries : Desc :=
  NewDesc (BuildFQName metricNamespace "" "blocked_queries")
    "Blocked queries of the presto cluster." [] []

def queuedQueries : Desc :=
  NewDesc (BuildFQName metricNamespace "" "queued_queries")
    "Queued queries of the presto cluster." [] []

def activeWorkers : Desc :=
  NewDesc (BuildFQName metricNamespace "" "active_workers")
    "Active workers of the presto cluster." [] []

def runningDrivers : Desc :=
  NewDesc (BuildFQName metricNamespace "" "running_drivers")
    "Running drivers of the presto cluster." [] []

def reservedMemory : Desc :=
  NewDesc (BuildFQName metricNamespace "" "reserved_memory")
    "Reserved memory of the presto cluster." [] []

def totalInputRows : Desc :=
  NewDesc (BuildFQName metricNamespace "" "total_input_rows")
    "Total input rows of the presto cluster." [] []

def totalInputBytes : Desc :=
  NewDesc (BuildFQName metricNamespace "" "total_input_bytes")
    "Total input bytes of the presto cluster." [] []

def totalCpuTimeSecs : Desc :=
  NewDesc (BuildFQName metricNamespace "" "total_cpu_time_secs")
    "Total cpu time of the presto cluster." [] []

/-! ## The collector -/

/-- The struct `Exporter`: the configured address and the nine decoded
values. -/
structure Exporter where
  uri : String
  RunningQueries : Float64
  BlockedQueries : Float64
  QueuedQueries : Float64
  ActiveWorkers : Float64
  RunningDrivers : Float64
  ReservedMemory : Float64
  TotalInputRows : Float64
  TotalInputBytes : Float64
  TotalCpuTimeSecs : Float64
deriving DecidableEq, Repr

/-- The collector that `main` registers, `&Exporter{uri: opts.uri}`: every
value field has the zero value. -/
def registered (uri : String) : Exporter :=
  { uri := uri, RunningQueries := Float64.zero, BlockedQueries := Float64.zero,
    QueuedQueries := Float64.zero, ActiveWorkers := Float64.zero,
    RunningDrivers := Float64.zero, ReservedMemory := Float64.zero,
    TotalInputRows := Float64.zero, TotalInputBytes := Float64.zero,
    TotalCpuTimeSecs := Float64.zero }

/-- The method `Describe`: the nine descriptors sent on the channel, in
order.  The receiver is not read. -/
def Describe (_e : Exporter) : List Desc :=
  [runningQueries, blockedQueries, queuedQueries, activeWorkers, runningDrivers,
   reservedMemory, totalInputRows, totalInputBytes, totalCpuTimeSecs]

/-! ## Decoding: `json.Unmarshal(body, &e)` -/

/-- The fields of `Exporter` that `encoding/json` sees: the exported ones.
The field `uri` is unexported and is no decode target. -/
inductive Field where
  | RunningQueries | BlockedQueries | QueuedQueries | ActiveWorkers | RunningDrivers
  | ReservedMemory | TotalInputRows | TotalInputBytes | TotalCpuTimeSecs
deriving DecidableEq, Repr

/-- The name each field carries in its `json:"..."` tag. -/
def Field.name : Field → String
  | .RunningQueries => "runningQueries"
  | .BlockedQueries => "blockedQueries"
  | .QueuedQueries => "queuedQueries"
  | .ActiveWorkers => "activeWorkers"
  | .RunningDrivers => "runningDrivers"
  | .ReservedMemory => "reservedMemory"
  | .TotalInputRows => "totalInputRows"
  | .TotalInputBytes => "totalInputBytes"
  | .TotalCpuTimeSecs => "totalCpuTimeSecs"

/-- The decoder's field list for `Exporter`, in declaration order. -/
def fields : List Field :=
  [.RunningQueries, .BlockedQueries, .QueuedQueries, .ActiveWorkers, .RunningDrivers,
   .ReservedMemory, .TotalInputRows, .TotalInputBytes, .TotalCpuTimeSecs]

/-- Reading one value field. -/
def Exporter.get (e : Exporter) : Field → Float64
  | .RunningQueries => e.RunningQueries
  | .BlockedQueries => e.BlockedQueries
  | .QueuedQueries => e.QueuedQueries
  | .ActiveWorkers => e.ActiveWorkers
  | .RunningDrivers => e.RunningDrivers
  | .ReservedMemory => e.ReservedMemory
  | .TotalInputRows => e.TotalInputRows
  | .TotalInputBytes => e.TotalInputBytes
  | .TotalCpuTimeSecs => e.TotalCpuTimeSecs

/-- Writing one value field, `v.SetFloat(n)` on the field. -/
def Exporter.set (e : Exporter) (f : Field) (x : Float64) : Exporter :=
  match f with
  | .RunningQueries => { e with RunningQueries := x }
  | .BlockedQueries => { e with BlockedQueries := x }
  | .QueuedQueries => { e with QueuedQueries := x }
  | .ActiveWorkers => { e with ActiveWorkers := x }
  | .RunningDrivers => { e with RunningDrivers := x }
  | .ReservedMemory => { e with ReservedMemory := x }
  | .TotalInputRows => { e with TotalInputRows := x }
  | .TotalInputBytes => { e with TotalInputBytes := x }
  | .TotalCpuTimeSecs => { e with TotalCpuTimeSecs := x }

/-- The decoder's `foldRune` as far as it bears on ASCII names: a lower-case
ASCII letter folds to its capital, and the two runes outside ASCII whose fold
set holds an ASCII letter, the Kelvin sign U+212A and the long s U+017F, fold
to `K` and `S`.  Every other rune folds to a rune that is no ASCII letter and
is left as it is, which no comparison with a folded ASCII name can tell
apart. -/
def foldRune (c : Char) : Char :=
  if 'a' ≤ c ∧ c ≤ 'z' then Char.ofNat (c.toNat - 32)
  else if c = Char.ofNat 0x212A then 'K'
  else if c = Char.ofNat 0x017F then 'S'
  else c

/-- The decoder's `foldName`: the name with every rune folded. -/
def foldName (s : String) : List Char := s.data.map foldRune

/-- The field an object key selects: the field whose name is the key, and
failing that the field whose folded name is the folded key; `none` when the
key selects no field, in which case the decoder skips the member. -/
def lookupField (key : String) : Option Field :=
  match fields.find? (fun f => f.name = key) with
  | some f => some f
  | none => fields.find? (fun f => foldName f.name = foldName key)

/-- The errors `json.Unmarshal` returns: a syntax error, found by the scan
that precedes any store, or an `UnmarshalTypeError` naming the kind of JSON
value and the field it did not fit (the empty string at top level).  For a
number out of range the library's `Value` is the word `number`, a blank and
the text of the token; the token stands here for its text. -/
inductive UnmarshalError where
  | SyntaxError : UnmarshalError
  | UnmarshalTypeError (Value : String) (token : Option JNumber) (Field : String) :
    UnmarshalError
deriving DecidableEq, Repr

/-- The method `d.saveError`: the earliest error is kept. -/
def saveError (saved : Option UnmarshalError) (err : UnmarshalError) : Option UnmarshalError :=
  match saved with
  | some first => some first
  | none => some err

/-- The method `d.value` on a `float64` field: a number in range is stored,
`null` has no effect on a float, a number out of range and every other kind of
value leave the field as it is and save an `UnmarshalTypeError`. -/
def storeField (e : Exporter) (saved : Option UnmarshalError) (f : Field) :
    JSON → Exporter × Option UnmarshalError
  | .null => (e, saved)
  | .number n =>
    match ParseFloat n with
    | some x => (e.set f x, saved)
    | none => (e, saveError saved (.UnmarshalTypeError "number" (some n) f.name))
  | .bool _ => (e, saveError saved (.UnmarshalTypeError "bool" none f.name))
  | .string _ => (e, saveError saved (.UnmarshalTypeError "string" none f.name))
  | .array _ => (e, saveError saved (.UnmarshalTypeError "array" none f.name))
  | .object _ => (e, saveError saved (.UnmarshalTypeError "object" none f.name))

/-- The method `d.object` on the struct: the members are taken in order, a
member whose key selects a field is stored into it, any other member is
skipped, and decoding goes on after a saved error. -/
def decodeObject (e : Exporter) (saved : Option UnmarshalError) :
    List (String × JSON) → Exporter × Option UnmarshalError
  | [] => (e, saved)
  | (key, v) :: rest =>
    match lookupField key with
    | none => decodeObject e saved rest
    | some f => decodeObject (storeField e saved f v).1 (storeField e saved f v).2 rest

/-- The bytes `ioutil.ReadAll` returns, as the decoder's scanner classifies
them: not a JSON text, or the text of one JSON document. -/
inductive Bytes where
  | invalid : Bytes
  | json (doc : JSON) : Bytes

/-- What `json.Unmarshal(body, &e)` leaves behind.  The second argument is
the address of the receiver variable `e`, itself a pointer to the collector:
`isNil` tells whether that variable is nil afterwards, `target` is the
collector it pointed to, `err` the error returned. -/
structure Unmarshaled where
  isNil : Bool
  target : Exporter
  err : Option UnmarshalError
deriving DecidableEq, Repr

/-- The call `json.Unmarshal(body, &e)` with `e` pointing to the collector
`target`.  Bytes that are no JSON text are rejected before anything is stored.
The literal `null` sets the pointer variable `e` to nil and is no error.  An
object is decoded onto the collector the pointer refers to.  Any other
document does not fit the struct. -/
def Unmarshal (body : Bytes) (target : Exporter) : Unmarshaled :=
  match body with
  | .invalid => { isNil := false, target := target, err := some .SyntaxError }
  | .json .null => { isNil := true, target := target, err := none }
  | .json (.bool _) =>
    { isNil := false, target := target, err := some (.UnmarshalTypeError "bool" none "") }
  | .json (.number _) =>
    { isNil := false, target := target, err := some (.UnmarshalTypeError "number" none "") }
  | .json (.string _) =>
    { isNil := false, target := target, err := some (.UnmarshalTypeError "string" none "") }
  | .json (.array _) =>
    { isNil := false, target := target, err := some (.UnmarshalTypeError "array" none "") }
  | .json (.object members) =>
    { isNil := false, target := (decodeObject target none members).1,
      err := (decodeObject target none members).2 }

/-! ## Samples -/

/-- The type `prometheus.ValueType`. -/
inductive ValueType where
  | CounterValue | GaugeValue | UntypedValue
deriving DecidableEq, Repr

/-- A constant metric: one sample, as sent on the channel of `Collect`. -/
structure Metric where
  desc : Desc
  valType : ValueType
  val : Float64
  labelValues : List String
deriving DecidableEq, Repr

/-- The function `prometheus.NewConstMetric`: an error, here `none`, for a
descriptor that carries an error or for a wrong number of label values. -/
def NewConstMetric (desc : Desc) (valueType : ValueType) (value : Float64)
    (labelValues : List String) : Option Metric :=
  if desc.err then none
  else if labelValues.length ≠ desc.variableLabels.length then none
  else some { desc := desc, valType := valueType, val := value, labelValues := labelValues }

/-! ## `Collect` -/

/-- The error values `Collect` hands to `log.Errorf`. -/
inductive Error where
  | get (msg : String) : Error
  | read (msg : String) : Error
  | decode (err : UnmarshalError) : Error
deriving DecidableEq, Repr

/-- The outcome of `ioutil.ReadAll(resp.Body)`. -/
inductive Body where
  | failed (msg : String) : Body
  | data (b : Bytes) : Body

/-- The outcome of `http.Get(e.uri)`: a transport error, or a response with
its status code and body. -/
inductive Upstream where
  | failed (msg : String) : Upstream
  | response (StatusCode : Int) (body : Body) : Upstream

/-- How a call stands or ends: still on its normal path, which ends in a
return, or stopped by a panic. -/
inductive Exit where
  | returned | panicked
deriving DecidableEq, Repr

/-- Everything one call of `Collect` does: the collector object afterwards,
the samples sent on the channel in order, how the call ended, whether
`resp.Body.Close()` ran, and the values passed to `log.Errorf` (`none` is a
nil error value). -/
structure Collected where
  exporter : Exporter
  sent : List Metric
  exit : Exit
  closed : Bool
  logged : List (Option Error)
deriving DecidableEq, Repr

/-- One statement `ch <- prometheus.MustNewConstMetric(desc, prometheus.GaugeValue, value)`:
the sample is sent, or `MustNewConstMetric` panics on an error of
`NewConstMetric`.  After a panic nothing more is sent. -/
def send (desc : Desc) (value : Float64) (r : Collected) : Collected :=
  match r.exit with
  | .panicked => r
  | .returned =>
    match NewConstMetric desc .GaugeValue value [] with
    | some m => { r with sent := r.sent ++ [m] }
    | none => { r with exit := .panicked }

/-- The nine send statements of `Collect`, reading the struct `s` that the
pointer `e` refers to. -/
def emit (s : Exporter) (r : Collected) : Collected :=
  r |> send runningQueries s.RunningQueries
    |> send blockedQueries s.BlockedQueries
    |> send queuedQueries s.QueuedQueries
    |> send activeWorkers s.ActiveWorkers
    |> send runningDrivers s.RunningDrivers
    |> send reservedMemory s.ReservedMemory
    |> send totalInputRows s.TotalInputRows
    |> send totalInputBytes s.TotalInputBytes
    |> send totalCpuTimeSecs s.TotalCpuTimeSecs

/-- The method `Collect` on the collector `e`, given what the upstream call
yields.  The body close is deferred only after the status check, so it runs on
the paths that pass that check, a panic included.  When `json.Unmarshal` has
set the pointer to nil without error, evaluating `e.RunningQueries` panics
before anything is sent. -/
def Collect (e : Exporter) (up : Upstream) : Collected :=
  match up with
  | .failed msg =>
    { exporter := e, sent := [], exit := .returned, closed := false,
      logged := [some (.get msg)] }
  | .response StatusCode body =>
    if StatusCode ≠ 200 then
      { exporter := e, sent := [], exit := .returned, closed := false, logged := [none] }
    else
      match body with
      | .failed msg =>
        { exporter := e, sent := [], exit := .returned, closed := true,
          logged := [some (.read msg)] }
      | .data b =>
        match (Unmarshal b e).err with
        | some err =>
          { exporter := (Unmarshal b e).target, sent := [], exit := .returned, closed := true,
            logged := [some (.decode err)] }
        | none =>
          if (Unmarshal b e).isNil then
            { exporter := (Unmarshal b e).target, sent := [], exit := .panicked, closed := true,
              logged := [] }
          else
            emit (Unmarshal b e).target
              { exporter := (Unmarshal b e).target, sent := [], exit := .returned,
                closed := true, logged := [] }

/-! ## Reading a scrape -/

/-- The values of a list of samples, in order. -/
def values (ms : List Metric) : List Float64 := ms.map (fun m => m.val)

/-- The descriptor `Collect` pairs with each field in its send statements. -/
def Field.desc : Field → Desc
  | .RunningQueries => runningQueries
  | .BlockedQueries => blockedQueries
  | .QueuedQueries => queuedQueries
  | .ActiveWorkers => activeWorkers
  | .RunningDrivers => runningDrivers
  | .ReservedMemory => reservedMemory
  | .TotalInputRows => totalInputRows
  | .TotalInputBytes => totalInputBytes
  | .TotalCpuTimeSecs => totalCpuTimeSecs

/-- The gauge sample that carries the value `x` for the field `f`. -/
def gauge (f : Field) (x : Float64) : Metric :=
  { desc := f.desc, valType := .GaugeValue, val := x, labelValues := [] }

/-- The members of an object whose key selects the field `f`, in order. -/
def selecting (f : Field) (members : List (String × JSON)) : List (String × JSON) :=
  members.filter (fun kv => lookupField kv.1 = some f)

/-- The JSON value an object gives the field `f`: that of the last member
whose key selects `f`. -/
def assigned (f : Field) (members : List (String × JSON)) : Option JSON :=
  ((selecting f members).getLast?).map (fun kv => kv.2)

/-- A member the decoder stores without error if its key selects a field: a
number token within the float64 range. -/
def isFloat64Number : JSON → Bool
  | .number n => (ParseFloat n).isSome
  | _ => false

/-- The samples `sent` are one gauge without labels per catalog identity, in
the order of the catalog, each carrying the float64 that `ParseFloat` yields
for the number the object gives the corresponding field. -/
def EmitsDocument (sent : List Metric) (members : List (String × JSON)) : Prop :=
  List.Forall₂
    (fun m f => m.desc = f.desc ∧ m.valType = .GaugeValue ∧ m.labelValues = [] ∧
      ∃ n, assigned f members = some (.number n) ∧ ParseFloat n = some m.val)
    sent fields

/-- The value of the sample sent for the field `f`, if one was sent. -/
def sample (sent : List Metric) (f : Field) : Option Float64 :=
  (sent.find? (fun m => m.desc = f.desc)).map (fun m => m.val)

/-- Whether the bytes are the text of a JSON object. -/
def isObject : Bytes → Bool
  | .json (.object _) => true
  | _ => false

/-- The members of the body when it is a JSON object, and none otherwise. -/
def membersOf : Bytes → List (String × JSON)
  | .json (.object members) => members
  | _ => []

/-- Whether the decode of the body stores into the field `f`: some member of
the body has a key that selects `f` and holds a number within the float64
range. -/
def storesInto (f : Field) (b : Bytes) : Bool :=
  (membersOf b).any (fun kv => decide (lookupField kv.1 = some f) && isFloat64Number kv.2)

/-- Whether a JSON value is a number token. -/
def isNumber : JSON → Bool
  | .number _ => true
  | _ => false

/-! ## Example documents -/

/-- A member with a number token `digits * 10^exp10`. -/
def num (key : String) (digits : Nat) (exp10 : Int) : String × JSON :=
  (key, .number ⟨false, digits, exp10⟩)

/-- The example body of the specification: the nine fields with the values
3, 0, 1, 5, 12, 104857600, 900000, 52428800 and 412.5. -/
def exampleMembers : List (String × JSON) :=
  [num "runningQueries" 3 0, num "blockedQueries" 0 0, num "queuedQueries" 1 0,
   num "activeWorkers" 5 0, num "runningDrivers" 12 0, num "reservedMemory" 104857600 0,
   num "totalInputRows" 900000 0, num "totalInputBytes" 52428800 0,
   num "totalCpuTimeSecs" 4125 (-1)]

/-- A status 200 response whose body is the object with these members. -/
def ok200 (members : List (String × JSON)) : Upstream :=
  .response 200 (.data (.json (.object members)))

/-- The example body with `runningQueries` given as `2e308`, a JSON number
beyond the largest float64. -/
def outOfRangeMembers : List (String × JSON) :=
  [num "runningQueries" 2 308, num "blockedQueries" 0 0, num "queuedQueries" 1 0,
   num "activeWorkers" 5 0, num "runningDrivers" 12 0, num "reservedMemory" 104857600 0,
   num "totalInputRows" 900000 0, num "totalInputBytes" 52428800 0,
   num "totalCpuTimeSecs" 4125 (-1)]

/-- The example body without its member `runningQueries`. -/
def laterMembers : List (String × JSON) :=
  [num "blockedQueries" 0 0, num "queuedQueries" 1 0,
   num "activeWorkers" 5 0, num "runningDrivers" 12 0, num "reservedMemory" 104857600 0,
   num "totalInputRows" 900000 0, num "totalInputBytes" 52428800 0,
   num "totalCpuTimeSecs" 4125 (-1)]

/-- An object with one member that fits its field and one that does not:
`runningQueries` is 5 and `blockedQueries` is the string `x`. -/
def misfitMembers : List (String × JSON) :=
  [num "runningQueries" 5 0, ("blockedQueries", .string "x")]

/-! ## Two invocations on the one registered collector

`main` registers a single `*Exporter`; every invocation of `Collect` decodes
onto that object and then reads it.  An invocation is cut here at the one
point between the return of `json.Unmarshal` and the first send statement.
The program can also be interrupted between two of its nine sends, which
`run` does not show: interleavings at that finer grain only add behaviours to
the ones below, so what is proved here holds for the schedules named and is
no account of every behaviour of the program. -/

/-- Where an invocation stands: before its decode, between decode and sends
(with what `json.Unmarshal` told it), or finished. -/
inductive Pc where
  | start : Pc
  | decoded (isNil : Bool) (err : Option UnmarshalError) : Pc
  | done (sent : List Metric) (exit : Exit) : Pc
deriving DecidableEq, Repr

/-- One step of an invocation that fetched the status 200 body `body`, on the
collector object `shared`: the decode onto the collector, then the sends that
read the collector as it is at that moment. -/
def stepInvocation (body : Bytes) (shared : Exporter) : Pc → Exporter × Pc
  | .start =>
    ((Unmarshal body shared).target,
      .decoded (Unmarshal body shared).isNil (Unmarshal body shared).err)
  | .decoded _ (some _) => (shared, .done [] .returned)
  | .decoded true none => (shared, .done [] .panicked)
  | .decoded false none =>
    (shared,
      .done
        (emit shared
          { exporter := shared, sent := [], exit := .returned, closed := true,
            logged := [] }).sent
        (emit shared
          { exporter := shared, sent := [], exit := .returned, closed := true,
            logged := [] }).exit)
  | .done sent exit => (shared, .done sent exit)

/-- The registered collector and the two invocations running on it. -/
structure Race where
  exporter : Exporter
  a : Pc
  b : Pc
deriving DecidableEq, Repr

/-- The samples an invocation has sent once it is finished. -/
def Pc.sent : Pc → List Metric
  | .done sent _ => sent
  | _ => []

/-- Whether an invocation has finished by returning. -/
def Pc.returned : Pc → Bool
  | .done _ .returned => true
  | _ => false

/-- Both invocations about to decode. -/
def Race.init (e : Exporter) : Race := { exporter := e, a := .start, b := .start }

/-- Running a schedule: `true` lets the first invocation take its next step,
`false` the second. -/
def run (bodyA bodyB : Bytes) : List Bool → Race → Race
  | [], r => r
  | true :: rest, r =>
    run bodyA bodyB rest
      { exporter := (stepInvocation bodyA r.exporter r.a).1,
        a := (stepInvocation bodyA r.exporter r.a).2, b := r.b }
  | false :: rest, r =>
    run bodyA bodyB rest
      { exporter := (stepInvocation bodyB r.exporter r.b).1, a := r.a,
        b := (stepInvocation bodyB r.exporter r.b).2 }

/-- A second full document, with values 7, 2, 4, 6, 20, 1024, 100, 2048 and
1.5. -/
def otherMembers : List (String × JSON) :=
  [num "runningQueries" 7 0, num "blockedQueries" 2 0, num "queuedQueries" 4 0,
   num "activeWorkers" 6 0, num "runningDrivers" 20 0, num "reservedMemory" 1024 0,
   num "totalInputRows" 100 0, num "totalInputBytes" 2048 0,
   num "totalCpuTimeSecs" 15 (-1)]

/-! ## Lemmas on `ParseFloat` -/

theorem log2Loop_bounds (fuel n : Nat) (hpos : 0 < n) (hfuel : n ≤ fuel) :
    2 ^ log2Loop fuel n ≤ n ∧ n < 2 ^ (log2Loop fuel n + 1) := by
  induction fuel generalizing n with
  | zero => omega
  | succ fuel ih =>
    by_cases hn : n < 2
    · have h1 : n = 1 := by omega
      subst h1
      simp [log2Loop]
    · have hhalf := ih (n / 2) (by omega) (by omega)
      simp only [log2Loop, hn, if_false]
      constructor
      · have := hhalf.1
        rw [pow_succ]
        omega
      · have := hhalf.2
        rw [pow_succ]
        omega

theorem log2_bounds (n : Nat) (hpos : 0 < n) : 2 ^ log2 n ≤ n ∧ n < 2 ^ (log2 n + 1) :=
  log2Loop_bounds n n hpos (Nat.le_refl n)

theorem scaled_den_pos (num den : Nat) (k : Int) (hden : 0 < den) : 0 < (scaled num den k).2 := by
  unfold scaled
  split
  · exact Nat.mul_pos hden (pow_pos (by norm_num) _)
  · exact hden

theorem scaled_value (num den : Nat) (k : Int) (hden : 0 < den) :
    ((scaled num den k).1 : ℚ) / ((scaled num den k).2 : ℚ) = (num : ℚ) / (den : ℚ) / (2 : ℚ) ^ k := by
  have hd : (den : ℚ) ≠ 0 := by exact_mod_cast hden.ne'
  unfold scaled
  split
  · rename_i hk
    have hk' : ((k.toNat : ℕ) : ℤ) = k := Int.toNat_of_nonneg hk
    have : (2 : ℚ) ^ k = (2 : ℚ) ^ k.toNat := by
      rw [← zpow_natCast, hk']
    simp only [Nat.cast_mul, Nat.cast_pow, Nat.cast_ofNat, this]
    rw [div_div]
  · rename_i hk
    have hk' : (((-k).toNat : ℕ) : ℤ) = -k := Int.toNat_of_nonneg (by omega)
    have : (2 : ℚ) ^ k = ((2 : ℚ) ^ (-k).toNat)⁻¹ := by
      rw [← zpow_natCast, hk', zpow_neg, inv_inv]
    simp only [Nat.cast_mul, Nat.cast_pow, Nat.cast_ofNat, this]
    field_simp

theorem geTwoPow_iff (num den : Nat) (e : Int) (hden : 0 < den) :
    geTwoPow num den e = true ↔ (2 : ℚ) ^ e ≤ (num : ℚ) / (den : ℚ) := by
  have hD := scaled_den_pos num den e hden
  have hDq : (0 : ℚ) < ((scaled num den e).2 : ℚ) := by exact_mod_cast hD
  have hv := scaled_value num den e hden
  have h2 : (0 : ℚ) < (2 : ℚ) ^ e := zpow_pos (by norm_num) e
  simp only [geTwoPow, decide_eq_true_eq]
  rw [← Nat.cast_le (α := ℚ), ← one_le_div hDq, hv, one_le_div h2]

theorem binaryExponent_bounds (num den : Nat) (hnum : 0 < num) (hden : 0 < den) :
    (2 : ℚ) ^ binaryExponent num den ≤ (num : ℚ) / (den : ℚ) ∧
      (num : ℚ) / (den : ℚ) < (2 : ℚ) ^ (binaryExponent num den + 1) := by
  have hn := log2_bounds num hnum
  have hd := log2_bounds den hden
  have hdq : (0 : ℚ) < (den : ℚ) := by exact_mod_cast hden
  have hn1 : ((2 : ℚ) ^ (log2 num : ℤ)) ≤ (num : ℚ) := by
    rw [zpow_natCast]; exact_mod_cast hn.1
  have hn2 : (num : ℚ) < (2 : ℚ) ^ ((log2 num : ℤ) + 1) := by
    have : (num : ℚ) < (2 : ℚ) ^ (log2 num + 1) := by exact_mod_cast hn.2
    rwa [← zpow_natCast, Nat.cast_add, Nat.cast_one] at this
  have hd1 : ((2 : ℚ) ^ (log2 den : ℤ)) ≤ (den : ℚ) := by
    rw [zpow_natCast]; exact_mod_cast hd.1
  have hd2 : (den : ℚ) < (2 : ℚ) ^ ((log2 den : ℤ) + 1) := by
    have : (den : ℚ) < (2 : ℚ) ^ (log2 den + 1) := by exact_mod_cast hd.2
    rwa [← zpow_natCast, Nat.cast_add, Nat.cast_one] at this
  have hupper : (num : ℚ) / (den : ℚ) < (2 : ℚ) ^ ((log2 num : ℤ) - (log2 den : ℤ) + 1) := by
    rw [div_lt_iff₀ hdq]
    calc (num : ℚ) < (2 : ℚ) ^ ((log2 num : ℤ) + 1) := hn2
      _ = (2 : ℚ) ^ ((log2 num : ℤ) - (log2 den : ℤ) + 1) * (2 : ℚ) ^ (log2 den : ℤ) := by
          rw [← zpow_add₀ (by norm_num : (2 : ℚ) ≠ 0)]; congr 1; ring
      _ ≤ (2 : ℚ) ^ ((log2 num : ℤ) - (log2 den : ℤ) + 1) * (den : ℚ) :=
          mul_le_mul_of_nonneg_left hd1 (zpow_pos (by norm_num) _).le
  have hlower : (2 : ℚ) ^ ((log2 num : ℤ) - (log2 den : ℤ) - 1) ≤ (num : ℚ) / (den : ℚ) := by
    rw [le_div_iff₀ hdq]
    calc (2 : ℚ) ^ ((log2 num : ℤ) - (log2 den : ℤ) - 1) * (den : ℚ)
        ≤ (2 : ℚ) ^ ((log2 num : ℤ) - (log2 den : ℤ) - 1) * (2 : ℚ) ^ ((log2 den : ℤ) + 1) :=
          mul_le_mul_of_nonneg_left hd2.le (zpow_pos (by norm_num) _).le
      _ = (2 : ℚ) ^ (log2 num : ℤ) := by
          rw [← zpow_add₀ (by norm_num : (2 : ℚ) ≠ 0)]; congr 1; ring
      _ ≤ (num : ℚ) := hn1
  unfold binaryExponent
  split
  · rename_i hge
    exact ⟨(geTwoPow_iff num den _ hden).mp hge, hupper⟩
  · rename_i hge
    rw [geTwoPow_iff num den _ hden, not_le] at hge
    refine ⟨hlower, ?_⟩
    have : (log2 num : ℤ) - (log2 den : ℤ) - 1 + 1 = (log2 num : ℤ) - (log2 den : ℤ) := by ring
    rw [this]
    exact hge

theorem zpow_bracket_unique (a : ℚ) (e e' : Int)
    (h1 : (2 : ℚ) ^ e ≤ a) (h2 : a < (2 : ℚ) ^ (e + 1))
    (h1' : (2 : ℚ) ^ e' ≤ a) (h2' : a < (2 : ℚ) ^ (e' + 1)) : e = e' := by
  have ha : (2 : ℚ) ^ e < (2 : ℚ) ^ (e' + 1) := lt_of_le_of_lt h1 h2'
  have hb : (2 : ℚ) ^ e' < (2 : ℚ) ^ (e + 1) := lt_of_le_of_lt h1' h2
  rw [zpow_lt_zpow_iff_right₀ (by norm_num : (1 : ℚ) < 2)] at ha hb
  omega

theorem roundHalfEven_multiple (m den : Nat) (hden : 0 < den) :
    roundHalfEven (m * den) den = m := by
  simp [roundHalfEven, Nat.mul_div_cancel _ hden, Nat.mul_mod_left]
  omega

theorem JNumber.den_pos (n : JNumber) : 0 < n.den := by
  unfold JNumber.den
  split
  · exact Nat.one_pos
  · exact pow_pos (by norm_num) _

theorem JNumber.num_div_den (n : JNumber) :
    (n.num : ℚ) / (n.den : ℚ) = (n.digits : ℚ) * (10 : ℚ) ^ n.exp10 := by
  unfold JNumber.num JNumber.den
  split
  · rename_i hp
    have hp' : ((n.exp10.toNat : ℕ) : ℤ) = n.exp10 := Int.toNat_of_nonneg hp
    have : (10 : ℚ) ^ n.exp10 = (10 : ℚ) ^ n.exp10.toNat := by
      rw [← zpow_natCast, hp']
    simp [this]
  · rename_i hp
    have hp' : (((-n.exp10).toNat : ℕ) : ℤ) = -n.exp10 := Int.toNat_of_nonneg (by omega)
    have : (10 : ℚ) ^ n.exp10 = ((10 : ℚ) ^ (-n.exp10).toNat)⁻¹ := by
      rw [← zpow_natCast, hp', zpow_neg, inv_inv]
    simp only [Nat.cast_pow, Nat.cast_ofNat, this]
    rw [div_eq_mul_inv]

theorem magnitude_eq (n : JNumber) (x : Float64) (hneg : x.neg = n.neg)
    (hval : x.toRat = n.toRat) :
    (x.mant : ℚ) * (2 : ℚ) ^ x.exp = (n.num : ℚ) / (n.den : ℚ) := by
  rw [JNumber.num_div_den]
  unfold Float64.toRat JNumber.toRat at hval
  rw [hneg] at hval
  cases hs : n.neg with
  | false =>
    simp only [hs, Bool.false_eq_true, if_false, one_mul] at hval
    exact hval
  | true =>
    simp only [hs, if_true, neg_mul, one_mul, neg_inj] at hval
    exact hval

/-- A JSON number whose value is a float64 is parsed to that very float64:
`ParseFloat` rounds only what needs rounding. -/
theorem ParseFloat_exact (n : JNumber) (x : Float64) (hform : x.isCanonical = true)
    (hneg : x.neg = n.neg) (hval : x.toRat = n.toRat) : ParseFloat n = some x := by
  have hmag := magnitude_eq n x hneg hval
  have hden := n.den_pos
  have hdenq : (0 : ℚ) < (n.den : ℚ) := by exact_mod_cast hden
  have h2E : (0 : ℚ) < (2 : ℚ) ^ x.exp := zpow_pos (by norm_num) _
  obtain ⟨xneg, M, E⟩ := x
  simp only at hmag hneg h2E
  subst hneg
  simp only [Float64.isCanonical, Bool.or_eq_true, Bool.and_eq_true, decide_eq_true_eq] at hform
  by_cases hM : M = 0
  · subst hM
    have hnum : n.num = 0 := by
      have h0 : (n.num : ℚ) / (n.den : ℚ) = 0 := by rw [← hmag]; simp
      rcases div_eq_zero_iff.mp h0 with h | h
      · exact_mod_cast h
      · exact absurd h hdenq.ne'
    have hE : E = -1074 := by
      rcases hform with h | h
      · omega
      · exact h.2
    simp [ParseFloat, hnum, hE]
  · have hMpos : 0 < M := Nat.pos_of_ne_zero hM
    have hMq : (0 : ℚ) < (M : ℚ) := by exact_mod_cast hMpos
    have hapos : (0 : ℚ) < (n.num : ℚ) / (n.den : ℚ) := by
      rw [← hmag]; exact mul_pos hMq h2E
    have hnum : 0 < n.num := by
      rcases Nat.eq_zero_or_pos n.num with h | h
      · rw [h] at hapos; simp at hapos
      · exact h
    have hM2 := log2_bounds M hMpos
    have hbe := binaryExponent_bounds n.num n.den hnum hden
    have hlow : (2 : ℚ) ^ ((log2 M : ℤ) + E) ≤ (n.num : ℚ) / (n.den : ℚ) := by
      rw [← hmag, zpow_add₀ (by norm_num : (2 : ℚ) ≠ 0), zpow_natCast]
      exact mul_le_mul_of_nonneg_right (by exact_mod_cast hM2.1) h2E.le
    have hhigh : (n.num : ℚ) / (n.den : ℚ) < (2 : ℚ) ^ ((log2 M : ℤ) + E + 1) := by
      have hrw : (log2 M : ℤ) + E + 1 = ((log2 M + 1 : ℕ) : ℤ) + E := by push_cast; ring
      rw [← hmag, hrw, zpow_add₀ (by norm_num : (2 : ℚ) ≠ 0), zpow_natCast]
      exact mul_lt_mul_of_pos_right (by exact_mod_cast hM2.2) h2E
    have he : binaryExponent n.num n.den = (log2 M : ℤ) + E :=
      zpow_bracket_unique _ _ _ hbe.1 hbe.2 hlow hhigh
    have hk : max (binaryExponent n.num n.den) (-1022) - 52 = E ∧ E ≤ 971 ∧ M < 2 ^ 53 := by
      rw [he]
      rcases hform with ⟨⟨⟨h1, h2⟩, h3⟩, h4⟩ | ⟨h1, h2⟩
      · have hl : log2 M = 52 := by
          have ha : 2 ^ log2 M < 2 ^ 53 := lt_of_le_of_lt hM2.1 h2
          have hb : 2 ^ 52 < 2 ^ (log2 M + 1) := lt_of_le_of_lt h1 hM2.2
          rw [Nat.pow_lt_pow_iff_right (by norm_num)] at ha hb
          omega
        rw [hl]
        refine ⟨?_, h4, h2⟩
        rw [max_eq_left (by push_cast; omega)]
        push_cast
        omega
      · have hl : log2 M < 52 := by
          have ha : 2 ^ log2 M < 2 ^ 52 := lt_of_le_of_lt hM2.1 h1
          rwa [Nat.pow_lt_pow_iff_right (by norm_num)] at ha
        refine ⟨?_, by omega, lt_trans h1 (by norm_num)⟩
        rw [max_eq_right (by omega)]
        omega
    obtain ⟨hkE, hE971, hM53⟩ := hk
    have hD := scaled_den_pos n.num n.den E hden
    have hDq : (0 : ℚ) < ((scaled n.num n.den E).2 : ℚ) := by exact_mod_cast hD
    have hN : (scaled n.num n.den E).1 = M * (scaled n.num n.den E).2 := by
      have hv := scaled_value n.num n.den E hden
      rw [← hmag, mul_div_assoc, div_self h2E.ne', mul_one, div_eq_iff hDq.ne'] at hv
      exact_mod_cast hv
    have hM53' : M ≠ 2 ^ 53 := by omega
    have hnum0 : n.num ≠ 0 := by omega
    simp only [ParseFloat, hnum0, if_false, hkE, hN, roundHalfEven_multiple _ _ hD, hM53']
    simp [not_lt.mpr hE971]

theorem ParseFloat_toRat (n : JNumber)
    (h : ∃ x : Float64, x.isCanonical = true ∧ x.toRat = n.toRat) :
    ∃ y, ParseFloat n = some y ∧ y.toRat = n.toRat := by
  obtain ⟨x, hform, hval⟩ := h
  have hy : (⟨n.neg, x.mant, x.exp⟩ : Float64).toRat = n.toRat := by
    by_cases hneg : x.neg = n.neg
    · rw [← hval]
      simp [Float64.toRat, hneg]
    · have hx0 : (0 : ℚ) ≤ (x.mant : ℚ) * (2 : ℚ) ^ x.exp :=
        mul_nonneg (Nat.cast_nonneg _) (zpow_pos (by norm_num) _).le
      have hn0 : (0 : ℚ) ≤ (n.digits : ℚ) * (10 : ℚ) ^ n.exp10 :=
        mul_nonneg (Nat.cast_nonneg _) (zpow_pos (by norm_num) _).le
      have hzero : (x.mant : ℚ) * (2 : ℚ) ^ x.exp = 0 ∧
          (n.digits : ℚ) * (10 : ℚ) ^ n.exp10 = 0 := by
        unfold Float64.toRat JNumber.toRat at hval
        cases hxs : x.neg <;> cases hns : n.neg <;>
          simp only [hxs, hns, Bool.false_eq_true, if_false, if_true, one_mul, neg_mul,
            mul_assoc] at hval hneg ⊢
        · exact absurd trivial hneg
        · constructor <;> linarith
        · constructor <;> linarith
        · exact absurd trivial hneg
      simp only [Float64.toRat, JNumber.toRat, mul_assoc, hzero.1, hzero.2, mul_zero]
  exact ⟨⟨n.neg, x.mant, x.exp⟩, ParseFloat_exact n ⟨n.neg, x.mant, x.exp⟩ hform rfl hy, hy⟩

theorem roundHalfEven_ge (a num den : Nat) (hden : 0 < den) (h : a * den ≤ num) :
    a ≤ roundHalfEven num den := by
  have hq : a ≤ num / den := (Nat.le_div_iff_mul_le hden).mpr h
  unfold roundHalfEven
  split <;> omega

theorem roundHalfEven_le (b num den : Nat) (hden : 0 < den) (h : num < b * den) :
    roundHalfEven num den ≤ b := by
  have hq : num / den < b := (Nat.div_lt_iff_lt_mul hden).mpr h
  unfold roundHalfEven
  split <;> omega

theorem scaled_bounds (num den : Nat) (k : Int) (hden : 0 < den) (lo hi : Nat)
    (hlo : ((lo : ℚ)) * (2 : ℚ) ^ k ≤ (num : ℚ) / (den : ℚ))
    (hhi : (num : ℚ) / (den : ℚ) < (hi : ℚ) * (2 : ℚ) ^ k) :
    lo * (scaled num den k).2 ≤ (scaled num den k).1 ∧
      (scaled num den k).1 < hi * (scaled num den k).2 := by
  have hD := scaled_den_pos num den k hden
  have hDq : (0 : ℚ) < ((scaled num den k).2 : ℚ) := by exact_mod_cast hD
  have h2k : (0 : ℚ) < (2 : ℚ) ^ k := zpow_pos (by norm_num) _
  have hv := scaled_value num den k hden
  have hlo' : (lo : ℚ) ≤ ((scaled num den k).1 : ℚ) / ((scaled num den k).2 : ℚ) := by
    rw [hv, le_div_iff₀ h2k]; exact hlo
  have hhi' : ((scaled num den k).1 : ℚ) / ((scaled num den k).2 : ℚ) < (hi : ℚ) := by
    rw [hv, div_lt_iff₀ h2k]; exact hhi
  rw [le_div_iff₀ hDq] at hlo'
  rw [div_lt_iff₀ hDq] at hhi'
  exact ⟨by exact_mod_cast hlo', by exact_mod_cast hhi'⟩

/-- Every float64 that `ParseFloat` yields is in canonical form. -/
theorem ParseFloat_canonical (n : JNumber) (x : Float64) (h : ParseFloat n = some x) :
    x.isCanonical = true := by
  have hden := n.den_pos
  unfold ParseFloat at h
  by_cases hnum0 : n.num = 0
  · simp only [hnum0, if_true, Option.some.injEq] at h
    subst h
    simp [Float64.isCanonical]
  · have hnum : 0 < n.num := Nat.pos_of_ne_zero hnum0
    have hbe := binaryExponent_bounds n.num n.den hnum hden
    simp only [hnum0, if_false] at h
    generalize hk : max (binaryExponent n.num n.den) (-1022) - 52 = k at h
    generalize hm : roundHalfEven (scaled n.num n.den k).1 (scaled n.num n.den k).2 = m at h
    have hD := scaled_den_pos n.num n.den k hden
    have hkge : -1074 ≤ k := by
      have := le_max_right (binaryExponent n.num n.den) (-1022)
      omega
    have hmbound : m ≤ 2 ^ 53 ∧ (-1022 ≤ binaryExponent n.num n.den → 2 ^ 52 ≤ m) := by
      constructor
      · have hhi : (n.num : ℚ) / (n.den : ℚ) < ((2 ^ 53 : ℕ) : ℚ) * (2 : ℚ) ^ k := by
          refine lt_of_lt_of_le hbe.2 ?_
          have : ((2 ^ 53 : ℕ) : ℚ) * (2 : ℚ) ^ k = (2 : ℚ) ^ ((53 : ℤ) + k) := by
            rw [zpow_add₀ (by norm_num : (2 : ℚ) ≠ 0)]; norm_num
          rw [this]
          apply zpow_le_zpow_right₀ (by norm_num)
          have := le_max_left (binaryExponent n.num n.den) (-1022)
          omega
        have hlo : ((0 : ℕ) : ℚ) * (2 : ℚ) ^ k ≤ (n.num : ℚ) / (n.den : ℚ) := by
          simp only [Nat.cast_zero, zero_mul]
          positivity
        have hb := scaled_bounds n.num n.den k hden 0 (2 ^ 53) hlo hhi
        rw [← hm]
        exact roundHalfEven_le _ _ _ hD hb.2
      · intro he
        have hkeq : k = binaryExponent n.num n.den - 52 := by
          rw [← hk, max_eq_left he]
        have hlo : ((2 ^ 52 : ℕ) : ℚ) * (2 : ℚ) ^ k ≤ (n.num : ℚ) / (n.den : ℚ) := by
          refine le_trans (le_of_eq ?_) hbe.1
          have : ((2 ^ 52 : ℕ) : ℚ) * (2 : ℚ) ^ k = (2 : ℚ) ^ ((52 : ℤ) + k) := by
            rw [zpow_add₀ (by norm_num : (2 : ℚ) ≠ 0)]; norm_num
          rw [this, hkeq]
          congr 1
          ring
        have hhi : (n.num : ℚ) / (n.den : ℚ) < ((2 ^ 54 : ℕ) : ℚ) * (2 : ℚ) ^ k := by
          refine lt_of_lt_of_le hbe.2 ?_
          have : ((2 ^ 54 : ℕ) : ℚ) * (2 : ℚ) ^ k = (2 : ℚ) ^ ((54 : ℤ) + k) := by
            rw [zpow_add₀ (by norm_num : (2 : ℚ) ≠ 0)]; norm_num
          rw [this]
          apply zpow_le_zpow_right₀ (by norm_num)
          omega
        have hb := scaled_bounds n.num n.den k hden (2 ^ 52) (2 ^ 54) hlo hhi
        rw [← hm]
        exact roundHalfEven_ge _ _ _ hD hb.1
    have hsub : binaryExponent n.num n.den < -1022 → k = -1074 ∧ m ≤ 2 ^ 52 := by
      intro he
      have hkeq : k = -1074 := by
        rw [← hk, max_eq_right (by omega)]
        norm_num
      refine ⟨hkeq, ?_⟩
      have hhi : (n.num : ℚ) / (n.den : ℚ) < ((2 ^ 52 : ℕ) : ℚ) * (2 : ℚ) ^ k := by
        refine lt_of_lt_of_le hbe.2 ?_
        have : ((2 ^ 52 : ℕ) : ℚ) * (2 : ℚ) ^ k = (2 : ℚ) ^ ((52 : ℤ) + k) := by
          rw [zpow_add₀ (by norm_num : (2 : ℚ) ≠ 0)]; norm_num
        rw [this]
        apply zpow_le_zpow_right₀ (by norm_num)
        omega
      have hlo : ((0 : ℕ) : ℚ) * (2 : ℚ) ^ k ≤ (n.num : ℚ) / (n.den : ℚ) := by
        simp only [Nat.cast_zero, zero_mul]
        positivity
      have hb := scaled_bounds n.num n.den k hden 0 (2 ^ 52) hlo hhi
      rw [← hm]
      exact roundHalfEven_le _ _ _ hD hb.2
    by_cases hm53 : m = 2 ^ 53
    · simp only [hm53, if_true] at h
      split at h
      · exact absurd h (by simp)
      · rename_i hexp
        simp only [Option.some.injEq] at h
        subst h
        simp only [not_lt] at hexp
        simp only [Float64.isCanonical, Bool.or_eq_true, Bool.and_eq_true, decide_eq_true_eq]
        left
        refine ⟨⟨⟨le_refl _, by norm_num⟩, by omega⟩, hexp⟩
    · simp only [hm53, if_false] at h
      split at h
      · exact absurd h (by simp)
      · rename_i hexp
        simp only [Option.some.injEq] at h
        subst h
        simp only [not_lt] at hexp
        simp only [Float64.isCanonical, Bool.or_eq_true, Bool.and_eq_true, decide_eq_true_eq]
        by_cases he : -1022 ≤ binaryExponent n.num n.den
        · left
          exact ⟨⟨⟨hmbound.2 he, lt_of_le_of_ne hmbound.1 hm53⟩, hkge⟩, hexp⟩
        · obtain ⟨hkeq, hmle⟩ := hsub (by omega)
          by_cases hm52 : m = 2 ^ 52
          · left
            refine ⟨⟨⟨by omega, by omega⟩, hkge⟩, hexp⟩
          · right
            exact ⟨lt_of_le_of_ne hmle hm52, hkeq⟩

theorem roundHalfEven_error (num den : Nat) (hden : 0 < den) :
    2 * (roundHalfEven num den * den) ≤ 2 * num + den ∧
      2 * num ≤ 2 * (roundHalfEven num den * den) + den := by
  have hdiv := Nat.div_add_mod num den
  have hmod := Nat.mod_lt num hden
  have hcomm : num / den * den = den * (num / den) := Nat.mul_comm _ _
  unfold roundHalfEven
  split
  · rename_i hup
    rw [Nat.add_mul, Nat.one_mul, hcomm]
    omega
  · rename_i hup
    rw [hcomm]
    omega

theorem toRat_sub (n : JNumber) (m : Nat) (k : Int) :
    |(⟨n.neg, m, k⟩ : Float64).toRat - n.toRat| =
      |(m : ℚ) * (2 : ℚ) ^ k - (n.num : ℚ) / (n.den : ℚ)| := by
  rw [JNumber.num_div_den]
  unfold Float64.toRat JNumber.toRat
  cases n.neg with
  | false => simp
  | true =>
    simp only [if_true, neg_mul, one_mul]
    rw [← abs_neg]
    congr 1
    ring

/-- The float64 that `ParseFloat` yields lies within half a unit in the last
place of the number parsed. -/
theorem ParseFloat_half_ulp (n : JNumber) (x : Float64) (h : ParseFloat n = some x) :
    ∃ k : Int, -1074 ≤ k ∧ k ≤ x.exp ∧ |x.toRat - n.toRat| * 2 ≤ (2 : ℚ) ^ k := by
  have hden := n.den_pos
  unfold ParseFloat at h
  by_cases hnum0 : n.num = 0
  · simp only [hnum0, if_true, Option.some.injEq] at h
    subst h
    refine ⟨-1074, le_refl _, le_refl _, ?_⟩
    rw [toRat_sub, hnum0]
    simp only [Nat.cast_zero, zero_mul, zero_div, sub_zero, abs_zero]
    positivity
  · simp only [hnum0, if_false] at h
    generalize hk : max (binaryExponent n.num n.den) (-1022) - 52 = k at h
    generalize hm : roundHalfEven (scaled n.num n.den k).1 (scaled n.num n.den k).2 = m at h
    have hD := scaled_den_pos n.num n.den k hden
    have hDq : (0 : ℚ) < ((scaled n.num n.den k).2 : ℚ) := by exact_mod_cast hD
    have h2k : (0 : ℚ) < (2 : ℚ) ^ k := zpow_pos (by norm_num) _
    have hkge : -1074 ≤ k := by
      have := le_max_right (binaryExponent n.num n.den) (-1022)
      omega
    have hv := scaled_value n.num n.den k hden
    have herr := roundHalfEven_error (scaled n.num n.den k).1 (scaled n.num n.den k).2 hD
    rw [hm] at herr
    have ha : (n.num : ℚ) / (n.den : ℚ) =
        ((scaled n.num n.den k).1 : ℚ) / ((scaled n.num n.den k).2 : ℚ) * (2 : ℚ) ^ k := by
      rw [hv, div_mul_cancel₀ _ h2k.ne']
    have hbound : |(m : ℚ) * (2 : ℚ) ^ k - (n.num : ℚ) / (n.den : ℚ)| * 2 ≤ (2 : ℚ) ^ k := by
      have h1 : (2 : ℚ) * ((m : ℚ) * ((scaled n.num n.den k).2 : ℚ)) ≤
          2 * ((scaled n.num n.den k).1 : ℚ) + ((scaled n.num n.den k).2 : ℚ) := by
        exact_mod_cast herr.1
      have h2 : (2 : ℚ) * ((scaled n.num n.den k).1 : ℚ) ≤
          2 * ((m : ℚ) * ((scaled n.num n.den k).2 : ℚ)) + ((scaled n.num n.den k).2 : ℚ) := by
        exact_mod_cast herr.2
      have hq : |(m : ℚ) - ((scaled n.num n.den k).1 : ℚ) / ((scaled n.num n.den k).2 : ℚ)| * 2
          ≤ 1 := by
        have hrw : (m : ℚ) - ((scaled n.num n.den k).1 : ℚ) / ((scaled n.num n.den k).2 : ℚ) =
            ((m : ℚ) * ((scaled n.num n.den k).2 : ℚ) - ((scaled n.num n.den k).1 : ℚ)) /
              ((scaled n.num n.den k).2 : ℚ) := by
          field_simp
        rw [hrw, abs_div, abs_of_pos hDq, div_mul_eq_mul_div, div_le_one hDq]
        rcases abs_cases ((m : ℚ) * ((scaled n.num n.den k).2 : ℚ) -
          ((scaled n.num n.den k).1 : ℚ)) with ⟨hc, _⟩ | ⟨hc, _⟩ <;> rw [hc] <;> linarith
      rw [ha, ← sub_mul, abs_mul, abs_of_pos h2k]
      calc |(m : ℚ) - ((scaled n.num n.den k).1 : ℚ) / ((scaled n.num n.den k).2 : ℚ)| *
            (2 : ℚ) ^ k * 2
          = (|(m : ℚ) - ((scaled n.num n.den k).1 : ℚ) / ((scaled n.num n.den k).2 : ℚ)| * 2) *
            (2 : ℚ) ^ k := by ring
        _ ≤ 1 * (2 : ℚ) ^ k := mul_le_mul_of_nonneg_right hq h2k.le
        _ = (2 : ℚ) ^ k := one_mul _
    by_cases hm53 : m = 2 ^ 53
    · simp only [hm53, if_true] at h
      split at h
      · exact absurd h (by simp)
      · simp only [Option.some.injEq] at h
        subst h
        refine ⟨k, hkge, by simp, ?_⟩
        have hcarry : |(⟨n.neg, 2 ^ 52, k + 1⟩ : Float64).toRat - n.toRat| =
            |(⟨n.neg, m, k⟩ : Float64).toRat - n.toRat| := by
          rw [toRat_sub, toRat_sub, hm53]
          congr 2
          rw [zpow_add₀ (by norm_num : (2 : ℚ) ≠ 0)]
          push_cast
          ring
        rw [hcarry, toRat_sub]
        exact hbound
    · simp only [hm53, if_false] at h
      split at h
      · exact absurd h (by simp)
      · simp only [Option.some.injEq] at h
        subst h
        refine ⟨k, hkge, le_refl _, ?_⟩
        rw [toRat_sub]
        exact hbound

/-! ## Lemmas on the send statements -/

theorem NewConstMetric_desc (f : Field) (x : Float64) :
    NewConstMetric f.desc .GaugeValue x [] = some (gauge f x) := by
  cases f <;> rfl

theorem send_desc (f : Field) (x : Float64) (e : Exporter) (sent : List Metric)
    (closed : Bool) (logged : List (Option Error)) :
    send f.desc x ⟨e, sent, .returned, closed, logged⟩ =
      ⟨e, sent ++ [gauge f x], .returned, closed, logged⟩ := by
  simp [send, NewConstMetric_desc]

theorem emit_returned (s e : Exporter) (sent : List Metric) (closed : Bool)
    (logged : List (Option Error)) :
    emit s ⟨e, sent, .returned, closed, logged⟩ =
      ⟨e, sent ++ fields.map (fun f => gauge f (s.get f)), .returned, closed, logged⟩ := by
  have h1 := send_desc .RunningQueries
  have h2 := send_desc .BlockedQueries
  have h3 := send_desc .QueuedQueries
  have h4 := send_desc .ActiveWorkers
  have h5 := send_desc .RunningDrivers
  have h6 := send_desc .ReservedMemory
  have h7 := send_desc .TotalInputRows
  have h8 := send_desc .TotalInputBytes
  have h9 := send_desc .TotalCpuTimeSecs
  simp only [Field.desc] at h1 h2 h3 h4 h5 h6 h7 h8 h9
  simp only [emit, h1, h2, h3, h4, h5, h6, h7, h8, h9, fields, List.map, Exporter.get,
    List.append_assoc, List.singleton_append, List.cons_append, List.nil_append]

theorem Field.desc_injective (f g : Field) (h : f.desc = g.desc) : f = g := by
  revert h
  cases f <;> cases g <;> decide

theorem sample_gauges (v : Field → Float64) (f : Field) :
    sample (fields.map (fun g => gauge g (v g))) f = some (v f) := by
  cases f <;> rfl

/-! ## Lemmas on the decode step -/

theorem Exporter.set_uri (e : Exporter) (f : Field) (x : Float64) : (e.set f x).uri = e.uri := by
  cases f <;> rfl

theorem Exporter.get_set_self (e : Exporter) (f : Field) (x : Float64) :
    (e.set f x).get f = x := by
  cases f <;> rfl

theorem Exporter.get_set_other (e : Exporter) (f g : Field) (x : Float64) (h : g ≠ f) :
    (e.set f x).get g = e.get g := by
  cases f <;> cases g <;> first | rfl | exact absurd rfl h

theorem storeField_uri (e : Exporter) (saved : Option UnmarshalError) (f : Field) (v : JSON) :
    (storeField e saved f v).1.uri = e.uri := by
  cases v with
  | number n =>
    simp only [storeField]
    cases ParseFloat n <;> simp [Exporter.set_uri]
  | _ => rfl

theorem storeField_get_other (e : Exporter) (saved : Option UnmarshalError) (f g : Field)
    (v : JSON) (h : g ≠ f) : (storeField e saved f v).1.get g = e.get g := by
  cases v with
  | number n =>
    simp only [storeField]
    cases ParseFloat n <;> simp [Exporter.get_set_other _ _ _ _ h]
  | _ => rfl

theorem storeField_number (e : Exporter) (saved : Option UnmarshalError) (f : Field)
    (n : JNumber) (x : Float64) (h : ParseFloat n = some x) :
    storeField e saved f (.number n) = (e.set f x, saved) := by
  simp [storeField, h]

theorem decodeObject_skip (e : Exporter) (saved : Option UnmarshalError) (key : String)
    (v : JSON) (rest : List (String × JSON)) (h : lookupField key = none) :
    decodeObject e saved ((key, v) :: rest) = decodeObject e saved rest := by
  simp [decodeObject, h]

theorem decodeObject_append (e : Exporter) (saved : Option UnmarshalError)
    (ms₁ ms₂ : List (String × JSON)) :
    decodeObject e saved (ms₁ ++ ms₂) =
      decodeObject (decodeObject e saved ms₁).1 (decodeObject e saved ms₁).2 ms₂ := by
  induction ms₁ generalizing e saved with
  | nil => rfl
  | cons kv rest ih =>
    obtain ⟨key, v⟩ := kv
    cases h : lookupField key with
    | none => simp [decodeObject, h, ih]
    | some f => simp [decodeObject, h, ih]

theorem decodeObject_uri (e : Exporter) (saved : Option UnmarshalError)
    (ms : List (String × JSON)) : (decodeObject e saved ms).1.uri = e.uri := by
  induction ms generalizing e saved with
  | nil => rfl
  | cons kv rest ih =>
    obtain ⟨key, v⟩ := kv
    cases h : lookupField key with
    | none => simp [decodeObject, h, ih]
    | some f => simp [decodeObject, h, ih, storeField_uri]

theorem decodeObject_get_omitted (e : Exporter) (saved : Option UnmarshalError)
    (ms : List (String × JSON)) (f : Field) (h : selecting f ms = []) :
    (decodeObject e saved ms).1.get f = e.get f := by
  induction ms generalizing e saved with
  | nil => rfl
  | cons kv rest ih =>
    obtain ⟨key, v⟩ := kv
    have hkey : lookupField key ≠ some f := by
      intro hk
      simp [selecting, List.filter_cons, hk] at h
    have hrest : selecting f rest = [] := by
      simp only [selecting, List.filter_cons] at h ⊢
      split at h
      · exact absurd h (List.cons_ne_nil _ _)
      · exact h
    cases hl : lookupField key with
    | none => simp [decodeObject, hl, ih _ _ hrest]
    | some g =>
      have hne : f ≠ g := by
        intro hfg
        exact hkey (by rw [hl, hfg])
      simp [decodeObject, hl, ih _ _ hrest, storeField_get_other _ _ _ _ _ hne]

theorem decodeObject_saved (e : Exporter) (saved : Option UnmarshalError)
    (ms : List (String × JSON))
    (hnum : ∀ kv ∈ ms, (lookupField kv.1).isSome = true → isFloat64Number kv.2 = true) :
    (decodeObject e saved ms).2 = saved := by
  induction ms generalizing e saved with
  | nil => rfl
  | cons kv rest ih =>
    obtain ⟨key, v⟩ := kv
    have hrest : ∀ kv ∈ rest, (lookupField kv.1).isSome = true → isFloat64Number kv.2 = true :=
      fun kv hkv => hnum kv (List.mem_cons_of_mem _ hkv)
    cases hl : lookupField key with
    | none => simp [decodeObject, hl, ih _ _ hrest]
    | some g =>
      have hv : isFloat64Number v = true := hnum (key, v) (List.mem_cons_self _ _) (by simp [hl])
      cases v with
      | number n =>
        cases hp : ParseFloat n with
        | none => simp [isFloat64Number, hp] at hv
        | some x => simp [decodeObject, hl, storeField, hp, ih _ _ hrest]
      | _ => simp [isFloat64Number] at hv

theorem decodeObject_get_assigned (e : Exporter) (saved : Option UnmarshalError)
    (ms : List (String × JSON))
    (hnum : ∀ kv ∈ ms, (lookupField kv.1).isSome = true → isFloat64Number kv.2 = true)
    (f : Field) (hf : selecting f ms ≠ []) :
    ∃ n, assigned f ms = some (.number n) ∧
      ParseFloat n = some ((decodeObject e saved ms).1.get f) := by
  induction ms using List.reverseRecOn with
  | nil => exact absurd rfl hf
  | append_singleton init kv ih =>
    obtain ⟨key, v⟩ := kv
    have hinit : ∀ kv ∈ init, (lookupField kv.1).isSome = true → isFloat64Number kv.2 = true :=
      fun kv hkv => hnum kv (List.mem_append_left _ hkv)
    rw [decodeObject_append]
    cases hl : lookupField key with
    | none =>
      have hsel : selecting f (init ++ [(key, v)]) = selecting f init := by
        simp [selecting, List.filter_append, List.filter_cons, hl]
      rw [hsel] at hf
      obtain ⟨n, hn, hp⟩ := ih hinit hf
      refine ⟨n, ?_, ?_⟩
      · simpa [assigned, hsel] using hn
      · simpa [decodeObject, hl] using hp
    | some g =>
      have hv : isFloat64Number v = true :=
        hnum (key, v) (List.mem_append_right _ (List.mem_singleton_self _)) (by simp [hl])
      cases v with
      | number m =>
        cases hp : ParseFloat m with
        | none => simp [isFloat64Number, hp] at hv
        | some x =>
          by_cases hgf : g = f
          · subst hgf
            refine ⟨m, ?_, ?_⟩
            · simp [assigned, selecting, List.filter_append, List.filter_cons, hl]
            · simp [decodeObject, hl, storeField, hp, Exporter.get_set_self]
          · have hsel : selecting f (init ++ [(key, JSON.number m)]) = selecting f init := by
              simp [selecting, List.filter_append, List.filter_cons, hl, hgf]
            rw [hsel] at hf
            obtain ⟨n, hn, hpn⟩ := ih hinit hf
            refine ⟨n, ?_, ?_⟩
            · simpa [assigned, hsel] using hn
            · have hfg : f ≠ g := fun h => hgf h.symm
              simpa [decodeObject, hl, storeField, hp, Exporter.get_set_other _ _ _ _ hfg]
                using hpn
      | _ => simp [isFloat64Number] at hv

theorem storeField_not_stored (e : Exporter) (saved : Option UnmarshalError) (f : Field)
    (v : JSON) (h : isFloat64Number v = false) : (storeField e saved f v).1 = e := by
  cases v with
  | number n =>
    cases hp : ParseFloat n with
    | none => simp [storeField, hp]
    | some x => simp [isFloat64Number, hp] at h
  | _ => rfl

theorem decodeObject_get_unstored (e : Exporter) (saved : Option UnmarshalError)
    (ms : List (String × JSON)) (f : Field)
    (h : ∀ kv ∈ ms, lookupField kv.1 = some f → isFloat64Number kv.2 = false) :
    (decodeObject e saved ms).1.get f = e.get f := by
  induction ms generalizing e saved with
  | nil => rfl
  | cons kv rest ih =>
    obtain ⟨key, v⟩ := kv
    have hrest : ∀ kv ∈ rest, lookupField kv.1 = some f → isFloat64Number kv.2 = false :=
      fun kv hkv => h kv (List.mem_cons_of_mem _ hkv)
    cases hl : lookupField key with
    | none => simp [decodeObject, hl, ih _ _ hrest]
    | some g =>
      simp only [decodeObject, hl]
      rw [ih _ _ hrest]
      by_cases hgf : g = f
      · subst hgf
        rw [storeField_not_stored e saved g v (h (key, v) (List.mem_cons_self _ _) hl)]
      · exact storeField_get_other e saved g f v (fun hfg => hgf hfg.symm)

/-! ## Lemmas on `Collect` -/

theorem mem_fields (f : Field) : f ∈ fields := by
  cases f <;> decide

theorem Unmarshal_uri (b : Bytes) (e : Exporter) : (Unmarshal b e).target.uri = e.uri := by
  cases b with
  | invalid => rfl
  | json doc =>
    cases doc with
    | object members => exact decodeObject_uri e none members
    | _ => rfl

theorem Unmarshal_not_object (b : Bytes) (e : Exporter) (h : isObject b = false) :
    (Unmarshal b e).target = e := by
  cases b with
  | invalid => rfl
  | json doc =>
    cases doc with
    | object members => simp [isObject] at h
    | _ => rfl

theorem Collect_exporter (e : Exporter) (StatusCode : Int) (b : Bytes) (h : StatusCode = 200) :
    (Collect e (.response StatusCode (.data b))).exporter = (Unmarshal b e).target := by
  subst h
  simp only [Collect]
  split
  · simp at *
  · split
    · rfl
    · split
      · rfl
      · rw [emit_returned]

theorem Collect_object_decoded (e : Exporter) (members : List (String × JSON))
    (h : (Unmarshal (.json (.object members)) e).err = none) :
    Collect e (ok200 members) =
      { exporter := (decodeObject e none members).1,
        sent := fields.map (fun f => gauge f ((decodeObject e none members).1.get f)),
        exit := .returned, closed := true, logged := [] } := by
  have hnil : (Unmarshal (.json (.object members)) e).isNil = false := rfl
  have htarget : (Unmarshal (.json (.object members)) e).target = (decodeObject e none members).1 :=
    rfl
  simp only [Collect, ok200, h, hnil, htarget, emit_returned]
  simp

theorem EmitsDocument_gauges (t : Exporter) (members : List (String × JSON))
    (h : ∀ f ∈ fields, ∃ n, assigned f members = some (.number n) ∧
      ParseFloat n = some (t.get f)) :
    EmitsDocument (fields.map (fun f => gauge f (t.get f))) members := by
  unfold EmitsDocument
  rw [List.forall₂_map_left_iff, List.forall₂_same]
  intro f hf
  exact ⟨rfl, rfl, rfl, h f hf⟩

theorem selecting_ne_nil (f : Field) (members : List (String × JSON))
    (h : (assigned f members).isSome = true) : selecting f members ≠ [] := by
  intro hnil
  simp [assigned, hnil] at h

theorem selecting_eq_nil (f : Field) (members : List (String × JSON))
    (h : (assigned f members).isSome = false) : selecting f members = [] := by
  cases hs : selecting f members with
  | nil => rfl
  | cons kv rest =>
    have hne : selecting f members ≠ [] := by simp [hs]
    obtain ⟨last, hlast⟩ := Option.isSome_iff_exists.mp (List.getLast?_isSome.mpr hne)
    simp [assigned, hlast] at h

theorem lookupField_none (key : String) (h : ∀ f ∈ fields, foldName f.name ≠ foldName key) :
    lookupField key = none := by
  have hexact : fields.find? (fun f => f.name = key) = none := by
    rw [List.find?_eq_none]
    intro f hf hname
    simp only [decide_eq_true_eq] at hname
    exact h f hf (by rw [hname])
  have hfold : fields.find? (fun f => foldName f.name = foldName key) = none := by
    rw [List.find?_eq_none]
    intro f hf hname
    simp only [decide_eq_true_eq] at hname
    exact h f hf hname
  simp only [lookupField, hexact, hfold]

/-! ## The catalog -/

/-- C3: for every collector state `Describe` emits nine identities with the
fully qualified names `presto_cluster_running_queries` to
`presto_cluster_total_cpu_time_secs` in the order of the source, pairwise
distinct, each without variable or constant labels. -/
theorem Describe_catalog (e : Exporter) :
    (Describe e).map (fun d => d.fqName) =
      ["presto_cluster_running_queries", "presto_cluster_blocked_queries",
       "presto_cluster_queued_queries", "presto_cluster_active_workers",
       "presto_cluster_running_drivers", "presto_cluster_reserved_memory",
       "presto_cluster_total_input_rows", "presto_cluster_total_input_bytes",
       "presto_cluster_total_cpu_time_secs"] ∧
    ((Describe e).map (fun d => d.fqName)).Nodup ∧
    (∀ d ∈ Describe e, d.variableLabels = [] ∧ d.constLabels = []) := by
  simp only [Describe]
  decide

/-! ## The abort paths -/

/-- C2: when the GET fails at transport level, or the status code is not 200,
or reading the body fails, or the body is not valid JSON, `Collect` sends no
sample and returns. -/
theorem Collect_abort_sends_nothing (e : Exporter) (up : Upstream)
    (h : (∃ msg, up = .failed msg) ∨
      (∃ code body, code ≠ 200 ∧ up = .response code body) ∨
      (∃ code msg, up = .response code (.failed msg)) ∨
      (∃ code, up = .response code (.data .invalid))) :
    (Collect e up).sent = [] ∧ (Collect e up).exit = .returned := by
  rcases h with ⟨msg, rfl⟩ | ⟨code, body, hcode, rfl⟩ | ⟨code, msg, rfl⟩ | ⟨code, rfl⟩
  · exact ⟨rfl, rfl⟩
  · simp [Collect, hcode]
  · by_cases hcode : code = 200
    · simp [Collect, hcode]
    · simp [Collect, hcode]
  · by_cases hcode : code = 200
    · simp [Collect, hcode, Unmarshal]
    · simp [Collect, hcode]

/-- C2, at a refused connection, a status 503, a body that cannot be read and
a status 200 body that is no JSON text. -/
theorem Collect_abort_sends_nothing_witness :
    ((Collect (registered "http://localhost:8080/v1/cluster")
        (.failed "connection refused")).sent = [] ∧
      (Collect (registered "http://localhost:8080/v1/cluster")
        (.failed "connection refused")).exit = .returned) ∧
    ((Collect (registered "http://localhost:8080/v1/cluster")
        (.response 503 (.data .invalid))).sent = [] ∧
      (Collect (registered "http://localhost:8080/v1/cluster")
        (.response 503 (.data .invalid))).exit = .returned) ∧
    ((Collect (registered "http://localhost:8080/v1/cluster")
        (.response 200 (.failed "unexpected EOF"))).sent = [] ∧
      (Collect (registered "http://localhost:8080/v1/cluster")
        (.response 200 (.failed "unexpected EOF"))).exit = .returned) ∧
    ((Collect (registered "http://localhost:8080/v1/cluster")
        (.response 200 (.data .invalid))).sent = [] ∧
      (Collect (registered "http://localhost:8080/v1/cluster")
        (.response 200 (.data .invalid))).exit = .returned) :=
  ⟨Collect_abort_sends_nothing _ _ (Or.inl ⟨_, rfl⟩),
   Collect_abort_sends_nothing _ _ (Or.inr (Or.inl ⟨503, _, by decide, rfl⟩)),
   Collect_abort_sends_nothing _ _ (Or.inr (Or.inr (Or.inl ⟨200, _, rfl⟩))),
   Collect_abort_sends_nothing _ _ (Or.inr (Or.inr (Or.inr ⟨200, rfl⟩)))⟩

/-! ## The configured address -/

/-- C9: for every collector state and every upstream outcome the collector's
`uri` after `Collect` is its `uri` before: the decoder has no way to the
unexported field, whatever members the document has. -/
theorem Collect_keeps_uri (e : Exporter) (up : Upstream) :
    (Collect e up).exporter.uri = e.uri := by
  cases up with
  | failed msg => rfl
  | response code body =>
    by_cases hcode : code = 200
    · cases body with
      | failed msg => simp [Collect, hcode]
      | data b => rw [Collect_exporter e code b hcode, Unmarshal_uri]
    · simp [Collect, hcode]

/-! ## The panic on a `null` body -/

/-- C5, at the failing input: on a status 200 response whose body is the JSON
literal `null`, `Collect` does not return; it panics, having sent nothing. -/
theorem Collect_null_body_panics (e : Exporter) :
    (Collect e (.response 200 (.data (.json .null)))).exit = .panicked ∧
    (Collect e (.response 200 (.data (.json .null)))).sent = [] :=
  ⟨rfl, rfl⟩

theorem Collect_returns_unless_null (e : Exporter) (up : Upstream)
    (h : ∀ code, up ≠ .response code (.data (.json .null))) :
    (Collect e up).exit = .returned := by
  cases up with
  | failed msg => rfl
  | response code body =>
    by_cases hcode : code = 200
    · cases body with
      | failed msg => simp [Collect, hcode]
      | data b =>
        subst hcode
        cases b with
        | invalid => rfl
        | json doc =>
          cases doc with
          | null => exact absurd rfl (h 200)
          | object members =>
            simp only [Collect]
            split
            · simp at *
            · split
              · rfl
              · have hnil : (Unmarshal (.json (.object members)) e).isNil = false := rfl
                simp [hnil, emit_returned]
          | _ => rfl
    · simp [Collect, hcode]

/-! ## The deferred close -/

/-- C7, at the failing input: on a response with status 503 `Collect`
returns without closing the response body, whatever the body is. -/
theorem Collect_bad_status_leaves_body_open (e : Exporter) (body : Body) :
    (Collect e (.response 503 body)).closed = false ∧
    (Collect e (.response 503 body)).exit = .returned := by
  simp [Collect]

theorem Collect_status_200_closes_body (e : Exporter) (body : Body) :
    (Collect e (.response 200 body)).closed = true := by
  cases body with
  | failed msg => simp [Collect]
  | data b =>
    simp only [Collect]
    split
    · simp at *
    · split
      · rfl
      · split
        · rfl
        · rw [emit_returned]

/-! ## The samples of a decoded document -/

theorem exampleMembers_values (e : Exporter) :
    values (Collect e (ok200 exampleMembers)).sent =
      [⟨false, 6755399441055744, -51⟩, ⟨false, 0, -1074⟩, ⟨false, 4503599627370496, -52⟩,
       ⟨false, 5629499534213120, -50⟩, ⟨false, 6755399441055744, -49⟩,
       ⟨false, 7036874417766400, -26⟩, ⟨false, 7730941132800000, -33⟩,
       ⟨false, 7036874417766400, -27⟩, ⟨false, 7256776743321600, -44⟩] := by
  cases e
  rfl

set_option maxRecDepth 20000 in
set_option exponentiation.threshold 2000 in
/-- C1 (counterexample): the body whose members are exactly the nine fields,
each with a JSON number, `runningQueries` being `2e308`, is answered with no
sample at all; so is the example body followed by a member `RESERVEDMEMORY`
that holds `true`. -/
theorem Collect_out_of_range_number_sends_nothing :
    outOfRangeMembers.map (fun kv => kv.1) = fields.map Field.name ∧
    (∀ kv ∈ outOfRangeMembers, isNumber kv.2 = true) ∧
    (Collect (registered "http://localhost:8080/v1/cluster") (ok200 outOfRangeMembers)).sent
      = [] ∧
    (Collect (registered "http://localhost:8080/v1/cluster")
      (ok200 (exampleMembers ++ [("RESERVEDMEMORY", .bool true)]))).sent = [] := by
  decide

/-- C1 (amended): for every collector state and every status 200 response
whose body is a JSON object in which every member whose key selects a field
(by its name, compared without regard to letter case) is a number within the
float64 range, and to each of the nine fields of which some member's key
selects, `Collect` returns after sending exactly nine gauge samples, one per
catalog identity in the order of `Describe`, the sample of a field carrying
the float64 that `ParseFloat` yields for the number of the last member
selecting the field, which is that number itself whenever the number is a
float64 value; the example body yields 3, 0, 1, 5, 12, 104857600, 900000,
52428800 and 412.5. -/
theorem Collect_sends_document (e : Exporter) (members : List (String × JSON))
    (hnum : ∀ kv ∈ members, (lookupField kv.1).isSome = true → isFloat64Number kv.2 = true)
    (hall : ∀ f ∈ fields, (assigned f members).isSome = true) :
    (Collect e (ok200 members)).exit = .returned ∧
    (Collect e (ok200 members)).sent.map (fun m => m.desc) = Describe e ∧
    EmitsDocument (Collect e (ok200 members)).sent members ∧
    (∀ f ∈ fields, ∀ n, assigned f members = some (.number n) →
      (∃ x : Float64, x.isCanonical = true ∧ x.toRat = n.toRat) →
      (sample (Collect e (ok200 members)).sent f).map Float64.toRat = some n.toRat) ∧
    (values (Collect e (ok200 exampleMembers)).sent).map Float64.toRat =
      [3, 0, 1, 5, 12, 104857600, 900000, 52428800, 825 / 2] := by
  have herr : (Unmarshal (.json (.object members)) e).err = none :=
    decodeObject_saved e none members hnum
  have hget : ∀ f ∈ fields, ∃ n, assigned f members = some (.number n) ∧
      ParseFloat n = some ((decodeObject e none members).1.get f) := fun f hf =>
    decodeObject_get_assigned e none members hnum f (selecting_ne_nil f members (hall f hf))
  rw [Collect_object_decoded e members herr]
  refine ⟨rfl, rfl, EmitsDocument_gauges _ _ hget, ?_, ?_⟩
  · intro f hf n hn hx
    obtain ⟨n', hn', hparse⟩ := hget f hf
    obtain ⟨y, hy, hyval⟩ := ParseFloat_toRat n hx
    have hnn : n' = n := by
      rw [hn] at hn'
      injection hn' with h
      injection h with h
      exact h.symm
    rw [hnn, hy] at hparse
    simp only
    rw [sample_gauges (fun g => (decodeObject e none members).1.get g) f]
    injection hparse with hparse
    simp [← hparse, hyval]
  · rw [exampleMembers_values]
    norm_num [Float64.toRat]

/-- C1 (amended), at the collector `main` registers and the example body. -/
theorem Collect_sends_document_witness :
    (∀ kv ∈ exampleMembers, (lookupField kv.1).isSome = true → isFloat64Number kv.2 = true) ∧
    (∀ f ∈ fields, (assigned f exampleMembers).isSome = true) ∧
    (Collect (registered "http://localhost:8080/v1/cluster") (ok200 exampleMembers)).exit
      = .returned ∧
    (Collect (registered "http://localhost:8080/v1/cluster")
      (ok200 exampleMembers)).sent.map (fun m => m.desc)
      = Describe (registered "http://localhost:8080/v1/cluster") ∧
    EmitsDocument
      (Collect (registered "http://localhost:8080/v1/cluster") (ok200 exampleMembers)).sent
      exampleMembers :=
  ⟨by decide, by decide,
    (Collect_sends_document (registered "http://localhost:8080/v1/cluster") exampleMembers
      (by decide) (by decide)).1,
    (Collect_sends_document (registered "http://localhost:8080/v1/cluster") exampleMembers
      (by decide) (by decide)).2.1,
    (Collect_sends_document (registered "http://localhost:8080/v1/cluster") exampleMembers
      (by decide) (by decide)).2.2.1⟩

/-! ## Fields the document omits -/

/-- C4 (counterexample): after a scrape of the example body, a scrape of the
same body without `runningQueries` sends for that field the value of the
scrape before, which is not zero; and an object that omits eight fields and
gives the ninth a string is answered with no sample at all. -/
theorem Collect_omitted_field_carried_over :
    (assigned .RunningQueries laterMembers).isSome = false ∧
    sample
      (Collect
        (Collect (registered "http://localhost:8080/v1/cluster") (ok200 exampleMembers)).exporter
        (ok200 laterMembers)).sent .RunningQueries =
      sample
        (Collect (registered "http://localhost:8080/v1/cluster") (ok200 exampleMembers)).sent
        .RunningQueries ∧
    sample
      (Collect
        (Collect (registered "http://localhost:8080/v1/cluster") (ok200 exampleMembers)).exporter
        (ok200 laterMembers)).sent .RunningQueries ≠ some Float64.zero ∧
    (Collect (registered "http://localhost:8080/v1/cluster")
      (ok200 [("totalCpuTimeSecs", .string "412.5")])).sent = [] := by
  decide

/-- C4 (amended): for every collector state and every status 200 response
whose body is a JSON object that the decode step accepts without error and in
which no member's key selects the field `f`, `Collect` sends nine samples, one
per catalog identity, and the sample for `f` carries the value the collector
held for `f` before the call; that value is zero on the collector `main`
registers. -/
theorem Collect_omitted_field_keeps_value (e : Exporter) (members : List (String × JSON))
    (f : Field) (herr : (Unmarshal (.json (.object members)) e).err = none)
    (homit : (assigned f members).isSome = false) :
    (Collect e (ok200 members)).sent.map (fun m => m.desc) = Describe e ∧
    sample (Collect e (ok200 members)).sent f = some (e.get f) ∧
    (registered e.uri).get f = Float64.zero := by
  rw [Collect_object_decoded e members herr]
  refine ⟨rfl, ?_, ?_⟩
  · simp only
    rw [sample_gauges (fun g => (decodeObject e none members).1.get g) f,
      decodeObject_get_omitted e none members f (selecting_eq_nil f members homit)]
  · cases f <;> rfl

/-- C4 (amended), at the state a scrape of the example body leaves and the
body without `runningQueries`. -/
theorem Collect_omitted_field_keeps_value_witness :
    (Unmarshal (.json (.object laterMembers))
      (Collect (registered "http://localhost:8080/v1/cluster")
        (ok200 exampleMembers)).exporter).err = none ∧
    (assigned .RunningQueries laterMembers).isSome = false ∧
    (Collect
      (Collect (registered "http://localhost:8080/v1/cluster") (ok200 exampleMembers)).exporter
      (ok200 laterMembers)).sent.map (fun m => m.desc) =
      Describe
        (Collect (registered "http://localhost:8080/v1/cluster")
          (ok200 exampleMembers)).exporter ∧
    sample
      (Collect
        (Collect (registered "http://localhost:8080/v1/cluster") (ok200 exampleMembers)).exporter
        (ok200 laterMembers)).sent .RunningQueries =
      some ((Collect (registered "http://localhost:8080/v1/cluster")
        (ok200 exampleMembers)).exporter.get .RunningQueries) ∧
    (registered (Collect (registered "http://localhost:8080/v1/cluster")
        (ok200 exampleMembers)).exporter.uri).get .RunningQueries = Float64.zero :=
  ⟨by decide, by decide,
    Collect_omitted_field_keeps_value
      (Collect (registered "http://localhost:8080/v1/cluster") (ok200 exampleMembers)).exporter
      laterMembers .RunningQueries (by decide) (by decide)⟩

/-! ## A failed decode -/

/-- C6 (counterexample): on the object that sets `runningQueries` to 5 and
`blockedQueries` to a string, the decode step reports an error and no sample
is sent, yet the collector's `RunningQueries` has changed. -/
theorem Collect_failed_decode_applies_members :
    (Unmarshal (.json (.object misfitMembers))
      (registered "http://localhost:8080/v1/cluster")).err ≠ none ∧
    (Collect (registered "http://localhost:8080/v1/cluster") (ok200 misfitMembers)).sent = [] ∧
    (Collect (registered "http://localhost:8080/v1/cluster")
      (ok200 misfitMembers)).exporter.RunningQueries ≠
      (registered "http://localhost:8080/v1/cluster").RunningQueries := by
  decide

/-- C6 (amended): for every collector state and every status 200 response
for which the decode step reports an error, `Collect` sends no sample and
returns, the `uri` is kept, and every value field into which the decode of
the body does not store (no member whose key selects the field holds a number
within the float64 range) equals its value before the call; when the body is
not a JSON object, the whole collector, its nine value fields included,
equals the collector before the call. -/
theorem Collect_failed_decode_keeps_unstored_fields (e : Exporter) (b : Bytes)
    (herr : (Unmarshal b e).err ≠ none) :
    (Collect e (.response 200 (.data b))).sent = [] ∧
    (Collect e (.response 200 (.data b))).exit = .returned ∧
    (Collect e (.response 200 (.data b))).exporter.uri = e.uri ∧
    (∀ f, storesInto f b = false →
      (Collect e (.response 200 (.data b))).exporter.get f = e.get f) ∧
    (isObject b = false → (Collect e (.response 200 (.data b))).exporter = e) := by
  have hexp := Collect_exporter e 200 b rfl
  refine ⟨?_, ?_, ?_, ?_, ?_⟩
  · cases hu : (Unmarshal b e).err with
    | none => exact absurd hu herr
    | some err => simp [Collect, hu]
  · cases hu : (Unmarshal b e).err with
    | none => exact absurd hu herr
    | some err => simp [Collect, hu]
  · rw [hexp, Unmarshal_uri]
  · intro f hf
    rw [hexp]
    cases b with
    | invalid => rfl
    | json doc =>
      cases doc with
      | object members =>
        have hall : ∀ kv ∈ members, lookupField kv.1 = some f →
            isFloat64Number kv.2 = false := by
          intro kv hkv hsel
          simp only [storesInto, membersOf, List.any_eq_false, Bool.and_eq_true,
            decide_eq_true_eq, not_and, Bool.not_eq_true] at hf
          exact hf kv hkv hsel
        exact decodeObject_get_unstored e none members f hall
      | _ => rfl
  · intro hobj
    rw [hexp, Unmarshal_not_object b e hobj]

/-- C6 (amended), on a collector that holds the values of the example body:
at the object that gives `totalCpuTimeSecs` a string, where the decode fails
and stores into no field, and at the object that sets `runningQueries` to 5
and `blockedQueries` to a string, where `TotalCpuTimeSecs` is kept. -/
theorem Collect_failed_decode_keeps_unstored_fields_witness :
    ((Unmarshal (.json (.object [("totalCpuTimeSecs", .string "412.5")]))
        (Collect (registered "http://localhost:8080/v1/cluster")
          (ok200 exampleMembers)).exporter).err ≠ none ∧
      (Collect (Collect (registered "http://localhost:8080/v1/cluster")
          (ok200 exampleMembers)).exporter
        (.response 200 (.data (.json (.object [("totalCpuTimeSecs", .string "412.5")]))))).sent
        = [] ∧
      (Collect (Collect (registered "http://localhost:8080/v1/cluster")
          (ok200 exampleMembers)).exporter
        (.response 200
          (.data (.json (.object [("totalCpuTimeSecs", .string "412.5")]))))).exporter.get
          .TotalCpuTimeSecs =
        (Collect (registered "http://localhost:8080/v1/cluster")
          (ok200 exampleMembers)).exporter.get .TotalCpuTimeSecs) ∧
    ((Unmarshal (.json (.object misfitMembers))
        (Collect (registered "http://localhost:8080/v1/cluster")
          (ok200 exampleMembers)).exporter).err ≠ none ∧
      storesInto .TotalCpuTimeSecs (.json (.object misfitMembers)) = false ∧
      (Collect (Collect (registered "http://localhost:8080/v1/cluster")
          (ok200 exampleMembers)).exporter
        (.response 200 (.data (.json (.object misfitMembers))))).exporter.get
          .TotalCpuTimeSecs =
        (Collect (registered "http://localhost:8080/v1/cluster")
          (ok200 exampleMembers)).exporter.get .TotalCpuTimeSecs) :=
  ⟨⟨by decide,
    (Collect_failed_decode_keeps_unstored_fields
      (Collect (registered "http://localhost:8080/v1/cluster") (ok200 exampleMembers)).exporter
      (.json (.object [("totalCpuTimeSecs", .string "412.5")])) (by decide)).1,
    (Collect_failed_decode_keeps_unstored_fields
      (Collect (registered "http://localhost:8080/v1/cluster") (ok200 exampleMembers)).exporter
      (.json (.object [("totalCpuTimeSecs", .string "412.5")])) (by decide)).2.2.2.1
      .TotalCpuTimeSecs (by decide)⟩,
   ⟨by decide, by decide,
    (Collect_failed_decode_keeps_unstored_fields
      (Collect (registered "http://localhost:8080/v1/cluster") (ok200 exampleMembers)).exporter
      (.json (.object misfitMembers)) (by decide)).2.2.2.1 .TotalCpuTimeSecs (by decide)⟩⟩

/-! ## Members that select no field -/

/-- C8 (counterexample): `RUNNINGQUERIES` is none of the nine field names,
yet adding a member with that key to the example body changes the samples:
with the number 7 the first sample carries 7, and with a string no sample is
sent at all. -/
theorem Collect_folded_key_changes_samples :
    "RUNNINGQUERIES" ∉ fields.map Field.name ∧
    (Collect (registered "http://localhost:8080/v1/cluster")
        (ok200 (exampleMembers ++ [num "RUNNINGQUERIES" 7 0]))).sent ≠
      (Collect (registered "http://localhost:8080/v1/cluster") (ok200 exampleMembers)).sent ∧
    sample (Collect (registered "http://localhost:8080/v1/cluster")
        (ok200 (exampleMembers ++ [num "RUNNINGQUERIES" 7 0]))).sent .RunningQueries =
      ParseFloat ⟨false, 7, 0⟩ ∧
    (Collect (registered "http://localhost:8080/v1/cluster")
        (ok200 (exampleMembers ++ [("RUNNINGQUERIES", .string "many")]))).sent = [] := by
  decide

/-- C8 (amended): for every collector state and every status 200 response
whose body is a JSON object, adding at any place a member whose key, with
every rune folded, is the folded name of none of the nine fields leaves
everything `Collect` does unchanged, the sequence of samples included,
whatever the member's value. -/
theorem Collect_ignores_unselected_member (e : Exporter) (before after : List (String × JSON))
    (key : String) (v : JSON) (h : ∀ f ∈ fields, foldName f.name ≠ foldName key) :
    Collect e (ok200 (before ++ (key, v) :: after)) = Collect e (ok200 (before ++ after)) := by
  have hdecode : ∀ saved, decodeObject e saved (before ++ (key, v) :: after) =
      decodeObject e saved (before ++ after) := by
    intro saved
    rw [decodeObject_append, decodeObject_append, decodeObject_skip _ _ _ _ _
      (lookupField_none key h)]
  simp only [Collect, ok200, Unmarshal, hdecode]

/-- C8 (amended), at the example body with a member `uri` put after its
third member. -/
theorem Collect_ignores_unselected_member_witness :
    (∀ f ∈ fields, foldName f.name ≠ foldName "uri") ∧
    Collect (registered "http://localhost:8080/v1/cluster")
        (ok200 (exampleMembers.take 3 ++
          ("uri", .string "http://example.org/") :: exampleMembers.drop 3)) =
      Collect (registered "http://localhost:8080/v1/cluster")
        (ok200 (exampleMembers.take 3 ++ exampleMembers.drop 3)) :=
  ⟨by decide,
    Collect_ignores_unselected_member (registered "http://localhost:8080/v1/cluster")
      (exampleMembers.take 3) (exampleMembers.drop 3) "uri" (.string "http://example.org/")
      (by decide)⟩

/-! ## Two invocations at once -/

theorem run_alone (e : Exporter) (bodyA bodyB : Bytes) :
    (run bodyA bodyB [true, true] (Race.init e)).a =
      .done (Collect e (.response 200 (.data bodyA))).sent
        (Collect e (.response 200 (.data bodyA))).exit ∧
    (run bodyA bodyB [true, true] (Race.init e)).exporter =
      (Collect e (.response 200 (.data bodyA))).exporter := by
  refine ⟨?_, ?_⟩
  · simp only [run, Race.init, stepInvocation, Collect]
    cases herr : (Unmarshal bodyA e).err with
    | some err => simp [stepInvocation]
    | none =>
      cases hnil : (Unmarshal bodyA e).isNil with
      | true => simp [stepInvocation]
      | false => simp [stepInvocation, emit_returned]
  · rw [Collect_exporter e 200 bodyA rfl]
    simp only [run, Race.init, stepInvocation]
    cases herr : (Unmarshal bodyA e).err with
    | some err => simp [stepInvocation]
    | none =>
      cases hnil : (Unmarshal bodyA e).isNil with
      | true => simp [stepInvocation]
      | false => simp [stepInvocation]

theorem stepInvocation_decode_then_send (e : Exporter) (members : List (String × JSON))
    (hnum : ∀ kv ∈ members, (lookupField kv.1).isSome = true → isFloat64Number kv.2 = true)
    (hall : ∀ f ∈ fields, (assigned f members).isSome = true) :
    ∃ t sent, (stepInvocation (.json (.object members)) e .start).1 = t ∧
      (stepInvocation (.json (.object members)) t
        (stepInvocation (.json (.object members)) e .start).2) = (t, .done sent .returned) ∧
      EmitsDocument sent members := by
  have herr : (decodeObject e none members).2 = none := decodeObject_saved e none members hnum
  refine ⟨(decodeObject e none members).1,
    fields.map (fun f => gauge f ((decodeObject e none members).1.get f)), rfl, ?_, ?_⟩
  · simp [stepInvocation, Unmarshal, herr, emit_returned]
  · apply EmitsDocument_gauges
    intro f hf
    exact decodeObject_get_assigned e none members hnum f
      (selecting_ne_nil f members (hall f hf))

/-- C10 (counterexample): when the first invocation fetched the example body
and the second the other document, and the second decodes between the first's
decode and the first's sends, the first invocation sends the values of the
second's document and not those of its own. -/
theorem run_interleaved_sends_other_document :
    values (run (.json (.object exampleMembers)) (.json (.object otherMembers))
        [true, false, true, false]
        (Race.init (registered "http://localhost:8080/v1/cluster"))).a.sent =
      values (Collect (registered "http://localhost:8080/v1/cluster")
        (ok200 otherMembers)).sent ∧
    values (run (.json (.object exampleMembers)) (.json (.object otherMembers))
        [true, false, true, false]
        (Race.init (registered "http://localhost:8080/v1/cluster"))).a.sent ≠
      values (Collect (registered "http://localhost:8080/v1/cluster")
        (ok200 exampleMembers)).sent := by
  decide

/-- C10 (amended): for two invocations on the one registered collector, each
against its own status 200 fetch of an object that gives every one of the
nine fields a number within the float64 range, when one invocation decodes
and sends before the other decodes, in either order, each invocation returns
after sending nine samples that carry the values of its own document. -/
theorem run_serial_sends_own_document (e : Exporter) (membersA membersB : List (String × JSON))
    (hnumA : ∀ kv ∈ membersA, (lookupField kv.1).isSome = true → isFloat64Number kv.2 = true)
    (hallA : ∀ f ∈ fields, (assigned f membersA).isSome = true)
    (hnumB : ∀ kv ∈ membersB, (lookupField kv.1).isSome = true → isFloat64Number kv.2 = true)
    (hallB : ∀ f ∈ fields, (assigned f membersB).isSome = true) :
    ((run (.json (.object membersA)) (.json (.object membersB)) [true, true, false, false]
        (Race.init e)).a.returned = true ∧
      (run (.json (.object membersA)) (.json (.object membersB)) [true, true, false, false]
        (Race.init e)).b.returned = true ∧
      EmitsDocument (run (.json (.object membersA)) (.json (.object membersB))
        [true, true, false, false] (Race.init e)).a.sent membersA ∧
      EmitsDocument (run (.json (.object membersA)) (.json (.object membersB))
        [true, true, false, false] (Race.init e)).b.sent membersB) ∧
    ((run (.json (.object membersA)) (.json (.object membersB)) [false, false, true, true]
        (Race.init e)).a.returned = true ∧
      (run (.json (.object membersA)) (.json (.object membersB)) [false, false, true, true]
        (Race.init e)).b.returned = true ∧
      EmitsDocument (run (.json (.object membersA)) (.json (.object membersB))
        [false, false, true, true] (Race.init e)).a.sent membersA ∧
      EmitsDocument (run (.json (.object membersA)) (.json (.object membersB))
        [false, false, true, true] (Race.init e)).b.sent membersB) := by
  constructor
  · obtain ⟨t, sa, ht, hsa, hda⟩ := stepInvocation_decode_then_send e membersA hnumA hallA
    obtain ⟨u, sb, hu, hsb, hdb⟩ := stepInvocation_decode_then_send t membersB hnumB hallB
    simp only [run, Race.init, ht, hsa, hu, hsb, Pc.sent, Pc.returned]
    exact ⟨trivial, trivial, hda, hdb⟩
  · obtain ⟨t, sb, ht, hsb, hdb⟩ := stepInvocation_decode_then_send e membersB hnumB hallB
    obtain ⟨u, sa, hu, hsa, hda⟩ := stepInvocation_decode_then_send t membersA hnumA hallA
    simp only [run, Race.init, ht, hsb, hu, hsa, Pc.sent, Pc.returned]
    exact ⟨trivial, trivial, hda, hdb⟩

/-- C10 (amended), at the collector `main` registers, the example body and
the other document. -/
theorem run_serial_sends_own_document_witness :
    (∀ kv ∈ exampleMembers, (lookupField kv.1).isSome = true → isFloat64Number kv.2 = true) ∧
    (∀ f ∈ fields, (assigned f exampleMembers).isSome = true) ∧
    (∀ kv ∈ otherMembers, (lookupField kv.1).isSome = true → isFloat64Number kv.2 = true) ∧
    (∀ f ∈ fields, (assigned f otherMembers).isSome = true) ∧
    EmitsDocument (run (.json (.object exampleMembers)) (.json (.object otherMembers))
      [true, true, false, false]
      (Race.init (registered "http://localhost:8080/v1/cluster"))).a.sent exampleMembers ∧
    EmitsDocument (run (.json (.object exampleMembers)) (.json (.object otherMembers))
      [true, true, false, false]
      (Race.init (registered "http://localhost:8080/v1/cluster"))).b.sent otherMembers :=
  ⟨by decide, by decide, by decide, by decide,
    (run_serial_sends_own_document (registered "http://localhost:8080/v1/cluster")
      exampleMembers otherMembers (by decide) (by decide) (by decide) (by decide)).1.2.2⟩

end PrestoExporter
